import Mathlib

/-!
# Flappy-Ship: trigger volumes, the session state machine and the kinematic body

A shallow embedding of `src/src/elements.cxx` (Ring, BadCube), `src/game.cxx`
(Game::changeState, Game::gameAction, Game::gameOnKey) and `src/car.cxx` (Car::Init,
Car::DoStep), with the properties the specification states about them.

Conventions of the embedding:

* a C++ `float` of the trigger volumes is a value of `Flt`: an exact rational, `+inf`,
  `-inf` or NaN. Comparisons and arithmetic on the special values follow IEEE-754; rounding
  and overflow of finite results and the sign of zero are not represented;
* `cosf` and `sinf` come from the C library, they are taken as parameters (`Libm`);
* the numbers of `Car` are elements of a field `K` (the rationals to evaluate, the reals
  for the ideal program). `Car.DoStep` computes with exact arithmetic; `Car.DoStepRounded`
  is the same code with the result of every operation rounded, `Car.binary32` and
  `Car.binary64` being the roundings to `float` and `double`. The functions `cos` and
  `sin` are parameters (`Trig`), and what a property needs of them is a hypothesis of its
  theorem;
* the time and countdown members of `Game` are unbounded integers;
* a member function that mutates its object is a function returning the new object
  (paired with the returned value when there is one).
-/

namespace FlappyShip

/-! ## Floats -/

/-- A C++ float: finite value, the two infinities, NaN. -/
inductive Flt where
  | fin (q : ℚ)
  | pinf
  | ninf
  | nan
  deriving DecidableEq

namespace Flt

/-- Unary minus. -/
def neg : Flt → Flt
  | fin a => fin (-a)
  | pinf => ninf
  | ninf => pinf
  | nan => nan

/-- Float addition (`inf + -inf` is NaN). -/
def add : Flt → Flt → Flt
  | nan, _ => nan
  | _, nan => nan
  | fin a, fin b => fin (a + b)
  | fin _, pinf => pinf
  | fin _, ninf => ninf
  | pinf, ninf => nan
  | pinf, _ => pinf
  | ninf, pinf => nan
  | ninf, _ => ninf

/-- Float subtraction. -/
def sub (a b : Flt) : Flt := add a (neg b)

/-- Sign of a rational as an infinity, for products and quotients with an infinity. -/
def infOfSign (pos : Bool) : Flt := if pos then pinf else ninf

/-- Float multiplication (`0 * inf` is NaN). -/
def mul : Flt → Flt → Flt
  | nan, _ => nan
  | _, nan => nan
  | fin a, fin b => fin (a * b)
  | fin a, pinf => if a = 0 then nan else infOfSign (decide (0 < a))
  | fin a, ninf => if a = 0 then nan else infOfSign (decide (a < 0))
  | pinf, fin b => if b = 0 then nan else infOfSign (decide (0 < b))
  | ninf, fin b => if b = 0 then nan else infOfSign (decide (b < 0))
  | pinf, pinf => pinf
  | pinf, ninf => ninf
  | ninf, pinf => ninf
  | ninf, ninf => pinf

/-- Float division (`0 / 0` and `inf / inf` are NaN, zero taken as `+0`). -/
def div : Flt → Flt → Flt
  | nan, _ => nan
  | _, nan => nan
  | fin a, fin b =>
      if b = 0 then (if a = 0 then nan else infOfSign (decide (0 < a))) else fin (a / b)
  | fin _, pinf => fin 0
  | fin _, ninf => fin 0
  | pinf, fin b => infOfSign (decide (0 ≤ b))
  | ninf, fin b => infOfSign (decide (b < 0))
  | pinf, _ => nan
  | ninf, _ => nan

/-- The comparison `a < b` of C++ (false when an operand is NaN). -/
def lt : Flt → Flt → Bool
  | nan, _ => false
  | _, nan => false
  | fin a, fin b => decide (a < b)
  | fin _, pinf => true
  | fin _, ninf => false
  | pinf, _ => false
  | ninf, ninf => false
  | ninf, _ => true

/-- The comparison `a == b` of C++ (false when an operand is NaN). -/
def eq : Flt → Flt → Bool
  | fin a, fin b => decide (a = b)
  | pinf, pinf => true
  | ninf, ninf => true
  | _, _ => false

/-- The comparison `a <= b` of C++. -/
def le (a b : Flt) : Bool := lt a b || eq a b

/-- The comparison `a > b` of C++. -/
def gt (a b : Flt) : Bool := lt b a

/-- The comparison `a >= b` of C++. -/
def ge (a b : Flt) : Bool := le b a

end Flt

/-- The constant `INFINITY` of `<cmath>`. -/
def INFINITY : Flt := Flt.pinf

/-- The constant `M_PI` of `<cmath>`: the double nearest to pi. -/
def M_PI : Flt := Flt.fin (884279719003555 / 281474976710656)

/-- The C library functions the trigger volumes call. -/
structure Libm where
  cosf : Flt → Flt
  sinf : Flt → Flt

/-- Values of `cosf` and `sinf` at argument 0; for evaluation at yaw angle 0. -/
def Libm.yawZero : Libm := { cosf := fun _ => Flt.fin 1, sinf := fun _ => Flt.fin 0 }

/-! ## Ring (the checkpoint) -/

/-- Data members of `elements::Ring` that the crossing test reads or writes. -/
structure Ring where
  m_3D_FLIGHT : Bool
  m_px : Flt
  m_py : Flt
  m_pz : Flt
  m_angle : Flt
  m_ship_old_z : Flt
  m_triggered : Bool
  deriving DecidableEq

namespace Ring

/-- Outer radius `Ring::s_R`. -/
def s_R : Flt := Flt.fin (5 / 2)

/-- Constructor `Ring::Ring(x, y, z, flight_mode, angle)`. -/
def new (x y z : Flt) (flight_mode : Bool) (angle : Flt) : Ring :=
  { m_3D_FLIGHT := flight_mode
    m_px := x
    m_py := if flight_mode then y else Flt.fin (3 / 2)
    m_pz := z
    m_angle := angle
    m_ship_old_z := INFINITY
    m_triggered := false }

/-- Accessor `Ring::isTriggered`. -/
def isTriggered (r : Ring) : Bool := r.m_triggered

/-- The method `Ring::checkCrossing(float x, float z)`. -/
def checkCrossing (L : Libm) (r : Ring) (x z : Flt) : Ring :=
  if !r.m_triggered then
    let first_call := Flt.eq r.m_ship_old_z INFINITY
    let x := Flt.sub x r.m_px
    let z := Flt.sub z r.m_pz
    let cos_phi := L.cosf (Flt.div (Flt.mul r.m_angle M_PI) (Flt.fin 180))
    let sin_phi := L.sinf (Flt.div (Flt.mul r.m_angle M_PI) (Flt.fin 180))
    let x_ring := Flt.sub (Flt.mul x cos_phi) (Flt.mul z sin_phi)
    let z_ring := Flt.add (Flt.mul x sin_phi) (Flt.mul z cos_phi)
    let check_X := Flt.lt x_ring (Flt.mul (Flt.fin 2) s_R) &&
      Flt.gt x_ring (Flt.mul (Flt.fin (-2)) s_R)
    let check_Z := (Flt.ge z_ring (Flt.fin 0) && Flt.lt r.m_ship_old_z (Flt.fin 0)) ||
      (Flt.le z_ring (Flt.fin 0) && Flt.gt r.m_ship_old_z (Flt.fin 0))
    let r1 := if !first_call && check_Z && check_X then { r with m_triggered := true } else r
    { r1 with m_ship_old_z := z_ring }
  else r

/-- The method `Ring::checkCrossing(float x, float y, float z)` (flight mode). -/
def checkCrossing3D (L : Libm) (r : Ring) (x y z : Flt) : Ring :=
  if !r.m_triggered then
    let first_call := Flt.eq r.m_ship_old_z INFINITY
    let x := Flt.sub x r.m_px
    let y := Flt.sub y r.m_py
    let z := Flt.sub z r.m_pz
    let cos_phi := L.cosf (Flt.div (Flt.mul r.m_angle M_PI) (Flt.fin 180))
    let sin_phi := L.sinf (Flt.div (Flt.mul r.m_angle M_PI) (Flt.fin 180))
    let x_ring := Flt.sub (Flt.mul x cos_phi) (Flt.mul z sin_phi)
    let y_ring := y
    let z_ring := Flt.add (Flt.mul x sin_phi) (Flt.mul z cos_phi)
    let check_X := Flt.lt x_ring (Flt.mul (Flt.fin 2) s_R) &&
      Flt.gt x_ring (Flt.mul (Flt.fin (-2)) s_R)
    let check_Y := Flt.lt y_ring (Flt.mul (Flt.fin 2) s_R) &&
      Flt.gt y_ring (Flt.mul (Flt.fin (-2)) s_R)
    let check_Z := (Flt.ge z_ring (Flt.fin 0) && Flt.lt r.m_ship_old_z (Flt.fin 0)) ||
      (Flt.le z_ring (Flt.fin 0) && Flt.gt r.m_ship_old_z (Flt.fin 0))
    let r1 :=
      if !first_call && check_Z && check_Y && check_X then { r with m_triggered := true } else r
    { r1 with m_ship_old_z := z_ring }
  else r

/-- A call of either overload of `Ring::checkCrossing`, with its arguments. -/
inductive Call where
  | flat (x z : Flt)
  | flight (x y z : Flt)

/-- One call applied to a ring. -/
def call (L : Libm) (r : Ring) : Call → Ring
  | Call.flat x z => checkCrossing L r x z
  | Call.flight x y z => checkCrossing3D L r x y z

/-- A sequence of calls applied to a ring, in order. -/
def calls (L : Libm) (r : Ring) (cs : List Call) : Ring := cs.foldl (call L) r

/-- Lateral coordinate of the craft in the ring frame, written as the specification does:
`(x - px) * cos(angle) - (z - pz) * sin(angle)`, the angle converted from degrees. -/
def xLocal (L : Libm) (r : Ring) (x z : Flt) : Flt :=
  Flt.sub (Flt.mul (Flt.sub x r.m_px) (L.cosf (Flt.div (Flt.mul r.m_angle M_PI) (Flt.fin 180))))
    (Flt.mul (Flt.sub z r.m_pz) (L.sinf (Flt.div (Flt.mul r.m_angle M_PI) (Flt.fin 180))))

/-- Depth coordinate of the craft in the ring frame, written as the specification does:
`(x - px) * sin(angle) + (z - pz) * cos(angle)`, the angle converted from degrees. -/
def zLocal (L : Libm) (r : Ring) (x z : Flt) : Flt :=
  Flt.add (Flt.mul (Flt.sub x r.m_px) (L.sinf (Flt.div (Flt.mul r.m_angle M_PI) (Flt.fin 180))))
    (Flt.mul (Flt.sub z r.m_pz) (L.cosf (Flt.div (Flt.mul r.m_angle M_PI) (Flt.fin 180))))

end Ring

/-! ## BadCube (the obstacle) -/

/-- Data members of `elements::BadCube` that the crossing test reads or writes. -/
structure BadCube where
  m_3D_FLIGHT : Bool
  m_px : Flt
  m_py : Flt
  m_pz : Flt
  m_angle : Flt
  m_ship_old_z : Flt
  deriving DecidableEq

namespace BadCube

/-- Side of the cube, `BadCube::side`. -/
def side : Flt := Flt.fin (5 / 2)

/-- Constructor `BadCube::BadCube(x, y, z, flight_mode, angle)`. -/
def new (x y z : Flt) (flight_mode : Bool) (angle : Flt) : BadCube :=
  { m_3D_FLIGHT := flight_mode
    m_px := x
    m_py := if flight_mode then y else Flt.fin (5 / 2)
    m_pz := z
    m_angle := angle
    m_ship_old_z := INFINITY }

/-- The method `BadCube::checkCrossing(float x, float z)`: the cube after the call and the
returned flag. -/
def checkCrossing (L : Libm) (c : BadCube) (x z : Flt) : BadCube × Bool :=
  let x := Flt.sub x c.m_px
  let z := Flt.sub z c.m_pz
  let cos_phi := L.cosf (Flt.div (Flt.mul c.m_angle M_PI) (Flt.fin 180))
  let sin_phi := L.sinf (Flt.div (Flt.mul c.m_angle M_PI) (Flt.fin 180))
  let x_ring := Flt.sub (Flt.mul x cos_phi) (Flt.mul z sin_phi)
  let z_ring := Flt.add (Flt.mul x sin_phi) (Flt.mul z cos_phi)
  let check_X := Flt.lt x_ring (Flt.mul (Flt.fin 2) side) &&
    Flt.gt x_ring (Flt.mul (Flt.fin (-2)) side)
  let check_Z := (Flt.ge z_ring (Flt.fin 0) && Flt.lt c.m_ship_old_z (Flt.fin 0)) ||
    (Flt.le z_ring (Flt.fin 0) && Flt.gt c.m_ship_old_z (Flt.fin 0))
  ({ c with m_ship_old_z := z_ring }, check_X && check_Z)

/-- The method `BadCube::checkCrossing(float x, float y, float z)` (flight mode). -/
def checkCrossing3D (L : Libm) (c : BadCube) (x y z : Flt) : BadCube × Bool :=
  let x := Flt.sub x c.m_px
  let y := Flt.sub y c.m_py
  let z := Flt.sub z c.m_pz
  let cos_phi := L.cosf (Flt.div (Flt.mul c.m_angle M_PI) (Flt.fin 180))
  let sin_phi := L.sinf (Flt.div (Flt.mul c.m_angle M_PI) (Flt.fin 180))
  let x_ring := Flt.sub (Flt.mul x cos_phi) (Flt.mul z sin_phi)
  let y_ring := y
  let z_ring := Flt.add (Flt.mul x sin_phi) (Flt.mul z cos_phi)
  let check_X := Flt.lt x_ring (Flt.mul (Flt.fin 2) side) &&
    Flt.gt x_ring (Flt.mul (Flt.fin (-2)) side)
  let check_Y := Flt.lt y_ring (Flt.mul (Flt.fin 2) side) &&
    Flt.gt y_ring (Flt.mul (Flt.fin (-2)) side)
  let check_Z := (Flt.ge z_ring (Flt.fin 0) && Flt.lt c.m_ship_old_z (Flt.fin 0)) ||
    (Flt.le z_ring (Flt.fin 0) && Flt.gt c.m_ship_old_z (Flt.fin 0))
  ({ c with m_ship_old_z := z_ring }, check_Z && check_Y && check_X)

end BadCube

/-! ## Game (the session state machine) -/

/-- The enumerators of `game::State` that `Game::changeState` names. The header that
declares them is not among the sources (`types.hxx` is an earlier revision of it). -/
inductive State where
  | SPLASH
  | MENU
  | GAME
  | END
  deriving DecidableEq

/-- The enumerators of `game::Key`: those of `types.hxx` and the function keys that
`Game::gameOnKey` names. -/
inductive Key where
  | W | A | S | D | UP | DOWN | LEFT | RIGHT | ESC | RETURN | F1 | F2 | F3 | F4 | F5
  deriving DecidableEq

/-- The enumeration `spaceship::Motion`. -/
inductive Motion where
  | THROTTLE
  | STEER_L
  | STEER_R
  | BRAKE
  deriving DecidableEq

/-- The error diagnostics (`lg::e`) of `Game::changeState`: `backToSplash` is the message
that one cannot go back to Splash while playing, `splashToEnd` the message that one cannot
go from the Splash screen directly to the end. -/
inductive Diag where
  | backToSplash
  | splashToEnd
  deriving DecidableEq

/-- What `game.cxx` uses and the sources do not define: the constant `RING_TIME`, the
signedness of the integer member `m_penalty_time` (integral, since `gameRender` applies `%`
to it), the default arguments of the trigger volume constructors, and the spaceship
(`m_ssh`) with the four member functions the session calls. -/
structure Decls (Ship : Type) where
  RING_TIME : Int
  penalty_unsigned : Bool
  ring_flight_mode : Bool
  ring_angle : Flt
  cube_flight_mode : Bool
  cube_angle : Flt
  execute : Ship → Ship
  x : Ship → Flt
  z : Ship → Flt
  sendCommand : Ship → Motion → Bool → Ship

/-- Conversion of an integer value to the type of `m_penalty_time`: unchanged for a signed
member, reduced modulo `2^32` for an unsigned one. -/
def Decls.toPenalty {Ship : Type} (E : Decls Ship) (v : Int) : Int :=
  if E.penalty_unsigned then v % 4294967296 else v

/-- A spaceship that starts at the origin and moves one unit along `-Z` at each `execute`:
the state is the number of steps made. -/
def Decls.straightLine (ringTime : Int) (penaltyUnsigned : Bool) : Decls Nat :=
  { RING_TIME := ringTime
    penalty_unsigned := penaltyUnsigned
    ring_flight_mode := false
    ring_angle := Flt.fin 0
    cube_flight_mode := false
    cube_angle := Flt.fin 0
    execute := fun k => k + 1
    x := fun _ => Flt.fin 0
    z := fun k => Flt.fin (-(k : ℚ))
    sendCommand := fun k _ _ => k }

/-- The macro `CAMERA_BACK_CAR` of `types.hxx`. -/
def CAMERA_BACK_CAR : Nat := 0

/-- The macro `CAMERA_TYPE_MAX` of `types.hxx`. -/
def CAMERA_TYPE_MAX : Nat := 5

/-- Data members of `game::Game` that the session logic reads or writes. `m_ssh` is a
pointer, null until `init`. Times and countdowns are integers (milliseconds). -/
structure Game (Ship : Type) where
  m_state : State
  m_camera_type : Nat
  m_game_started : Bool
  m_deadline_time : Int
  m_last_time : Int
  m_penalty_time : Int
  m_num_rings : Nat
  m_cur_ring_index : Nat
  m_num_cubes : Nat
  m_ssh : Option Ship
  m_rings : List Ring
  m_cubes : List BadCube

namespace Game

/-- Constructor `Game::Game(gameID, num_rings)`. -/
def new {Ship : Type} (E : Decls Ship) (num_rings : Nat) : Game Ship :=
  { m_state := State.GAME
    m_camera_type := CAMERA_BACK_CAR
    m_game_started := false
    m_deadline_time := E.RING_TIME
    m_last_time := 0
    m_penalty_time := 0
    m_num_rings := num_rings
    m_cur_ring_index := 0
    m_num_cubes := 10
    m_ssh := none
    m_rings := []
    m_cubes := [] }

/-- The method `Game::init_rings`; `coord i` is the i-th pair drawn from the coordinate
generator. -/
def init_rings {Ship : Type} (E : Decls Ship) (g : Game Ship) (coord : Nat → Flt × Flt) :
    Game Ship :=
  let y := Flt.fin (3 / 2)
  let place := fun i => Ring.new (coord i).1 y (coord i).2 E.ring_flight_mode E.ring_angle
  { g with m_rings := List.map place (List.range g.m_num_rings) }

/-- The method `Game::init_cubes`. -/
def init_cubes {Ship : Type} (E : Decls Ship) (g : Game Ship) (coord : Nat → Flt × Flt) :
    Game Ship :=
  let y := Flt.fin (5 / 2)
  let place := fun i => BadCube.new (coord i).1 y (coord i).2 E.cube_flight_mode E.cube_angle
  { g with m_cubes := List.map place (List.range g.m_num_cubes) }

/-- The method `Game::init`: the spaceship is obtained, rings and cubes are placed. -/
def init {Ship : Type} (E : Decls Ship) (g : Game Ship) (ship : Ship)
    (ringCoord cubeCoord : Nat → Flt × Flt) : Game Ship :=
  init_cubes E (init_rings E { g with m_ssh := some ship } ringCoord) cubeCoord

/-- The method `Game::changeState`: the game after the call and the error diagnostics
emitted. Binding the callbacks (`playGame`) touches the environment only. -/
def changeState {Ship : Type} (g : Game Ship) (state : State) : Game Ship × List Diag :=
  if state = g.m_state then (g, [])
  else if g.m_state = State.GAME ∧ state = State.SPLASH then (g, [Diag.backToSplash])
  else
    let log := if g.m_state = State.SPLASH ∧ state = State.END then [Diag.splashToEnd] else []
    let g := if state = State.MENU ∧ g.m_state = State.GAME then { g with m_state := state } else g
    let g := if state = State.GAME ∧ g.m_state = State.MENU then { g with m_state := state } else g
    let g := if state = State.END ∧ g.m_state = State.GAME then { g with m_state := state } else g
    ({ g with m_state := state }, log)

/-- The loop over `m_cubes` in `Game::gameAction`: the cubes after the loop and whether a
cube signalled (the loop stops at the first that does). -/
def cubesLoop (L : Libm) (x z : Flt) : List BadCube → List BadCube × Bool
  | [] => ([], false)
  | cube :: rest =>
      if (cube.checkCrossing L x z).2 then ((cube.checkCrossing L x z).1 :: rest, true)
      else ((cube.checkCrossing L x z).1 :: (cubesLoop L x z rest).1, (cubesLoop L x z rest).2)

/-- The right-hand side of the penalty update of `Game::gameAction`:
`m_penalty_time > 0.0 ? (m_penalty_time - 100) : 0.0`, stored back into the member. -/
def penaltyStep {Ship : Type} (E : Decls Ship) (p : Int) : Int :=
  if 0 < p then E.toPenalty (p - 100) else 0

/-- The method `Game::gameAction`; `ticks` is what `m_env.getTicks()` returns during the
call. No result when the spaceship pointer is null or `m_rings` is indexed out of bounds. -/
def gameAction {Ship : Type} (E : Decls Ship) (L : Libm) (g : Game Ship) (ticks : Int) :
    Option (Game Ship) :=
  match g.m_ssh with
  | none => none
  | some ship =>
    let ssh := E.execute ship
    let g := { g with m_ssh := some ssh }
    let g :=
      if g.m_game_started then
        let time_now := ticks
        let diff := time_now - g.m_last_time
        { g with
          m_deadline_time := g.m_deadline_time - diff
          m_penalty_time := penaltyStep E g.m_penalty_time
          m_last_time := time_now }
      else g
    match g.m_rings[g.m_cur_ring_index]? with
    | none => none
    | some ring =>
      let current_ring := ring.checkCrossing L (E.x ssh) (E.z ssh)
      let g := { g with m_rings := g.m_rings.set g.m_cur_ring_index current_ring }
      let ring_crossed := current_ring.isTriggered
      let g :=
        if ring_crossed then
          { g with
            m_deadline_time := g.m_deadline_time + E.RING_TIME
            m_cur_ring_index := g.m_cur_ring_index + 1 }
        else g
      let loop := cubesLoop L (E.x ssh) (E.z ssh) g.m_cubes
      some { g with
        m_cubes := loop.1
        m_penalty_time := if loop.2 then E.toPenalty 6000 else g.m_penalty_time }

/-- Modelled from the spec: `Game::change_camera_type` is declared outside the sources; the
specification calls it a camera mode cycle. -/
def change_camera_type {Ship : Type} (g : Game Ship) : Game Ship :=
  { g with m_camera_type := (g.m_camera_type + 1) % CAMERA_TYPE_MAX }

/-- The method `Game::gameOnKey`; `ticks` is what `m_env.getTicks()` returns during the call.
The toggles of F2..F5 touch the environment only. No result when a motion is sent through a
null spaceship pointer. -/
def gameOnKey {Ship : Type} (E : Decls Ship) (g : Game Ship) (key : Key) (pressed : Bool)
    (ticks : Int) : Option (Game Ship × List Diag) :=
  let sw : Option Motion × Game Ship × List Diag :=
    match key with
    | Key.W => (some Motion.THROTTLE, g, [])
    | Key.A => (some Motion.STEER_L, g, [])
    | Key.S => (some Motion.BRAKE, g, [])
    | Key.D => (some Motion.STEER_R, g, [])
    | Key.ESC => (none, if pressed then changeState g State.MENU else (g, []))
    | Key.F1 => (none, if pressed then (change_camera_type g, []) else (g, []))
    | _ => (none, g, [])
  match sw.1 with
  | none => some sw.2
  | some mt =>
      let g := sw.2.1
      let g :=
        if !g.m_game_started then
          { g with m_game_started := true, m_last_time := ticks, m_deadline_time := E.RING_TIME }
        else g
      match g.m_ssh with
      | none => none
      | some ship => some ({ g with m_ssh := some (E.sendCommand ship mt pressed) }, sw.2.2)

/-- The penalty countdown a tick holds when its obstacle loop starts: stepped when the
session is started, untouched otherwise. -/
def penaltyBeforeLoop {Ship : Type} (E : Decls Ship) (g : Game Ship) : Int :=
  if g.m_game_started then penaltyStep E g.m_penalty_time else g.m_penalty_time

/-- The session states reached from a constructed game by `init`, ticks and key events. -/
inductive Reachable {Ship : Type} (E : Decls Ship) (L : Libm) : Game Ship → Prop where
  | ctor (num_rings : Nat) : Reachable E L (Game.new E num_rings)
  | init {g : Game Ship} (ship : Ship) (ringCoord cubeCoord : Nat → Flt × Flt) :
      Reachable E L g → Reachable E L (Game.init E g ship ringCoord cubeCoord)
  | tick {g g1 : Game Ship} (ticks : Int) :
      Reachable E L g → gameAction E L g ticks = some g1 → Reachable E L g1
  | key {g g1 : Game Ship} (k : Key) (pressed : Bool) (ticks : Int) (log : List Diag) :
      Reachable E L g → gameOnKey E g k pressed ticks = some (g1, log) → Reachable E L g1

/-- A sequence of calls of `Game::gameAction`, one for each clock reading of the list. -/
def ticks {Ship : Type} (E : Decls Ship) (L : Libm) (g : Game Ship) :
    List Int → Option (Game Ship)
  | [] => some g
  | t :: ts =>
    match gameAction E L g t with
    | none => none
    | some g1 => ticks E L g1 ts

end Game

/-! ## Car (the kinematic body) -/

/-- The functions `cos` and `sin` of `<cmath>` that `Car::DoStep` calls, on numbers of
type `K`. -/
structure Trig (K : Type) where
  cos : K → K
  sin : K → K

/-- The indices of the array `Controller::key` that `Car::DoStep` reads. -/
inductive Button where
  | LEFT
  | RIGHT
  | ACC
  | DEC
  deriving DecidableEq

/-- The class `Controller`: the array `key`. -/
structure Controller where
  key : Button → Bool

/-- The method `Controller::Init`. -/
def Controller.Init : Controller := { key := fun _ => false }

/-- The method `Controller::Joy`. -/
def Controller.Joy (k : Controller) (keymap : Button) (pressed_or_released : Bool) :
    Controller :=
  { key := fun b => if b = keymap then pressed_or_released else k.key b }

/-- A key array given by its four entries. -/
def Controller.ofFlags (left right acc dec : Bool) : Controller :=
  { key := fun b =>
      match b with
      | Button.LEFT => left
      | Button.RIGHT => right
      | Button.ACC => acc
      | Button.DEC => dec }

/-- Data members of `Car` that `Car::Init` assigns and `Car::DoStep` reads or writes. The
numbers are elements of a field `K`: arithmetic is exact. -/
structure Car (K : Type) where
  px : K
  py : K
  pz : K
  facing : K
  mozzoA : K
  mozzoP : K
  sterzo : K
  vx : K
  vy : K
  vz : K
  controller : Controller
  velSterzo : K
  velRitornoSterzo : K
  accMax : K
  attritoX : K
  attritoY : K
  attritoZ : K
  raggioRuotaA : K
  raggioRuotaP : K
  grip : K

namespace Car

/-- The constant `M_PI` of `<cmath>` as a number of type `K`. -/
def M_PI {K : Type} [Field K] : K := 884279719003555 / 281474976710656

/-- The method `Car::Init`. -/
def Init {K : Type} [Field K] : Car K :=
  { px := 0
    py := 0
    pz := 0
    facing := 0
    mozzoA := 0
    mozzoP := 0
    sterzo := 0
    vx := 0
    vy := 0
    vz := 0
    controller := Controller.Init
    velSterzo := 34 / 10
    velRitornoSterzo := 93 / 100
    accMax := 11 / 10000
    attritoZ := 991 / 1000
    attritoX := 9 / 10
    attritoY := 1
    raggioRuotaA := 25 / 100
    raggioRuotaP := 35 / 100
    grip := 45 / 100 }

/-- The method `Car::DoStep`. -/
def DoStep {K : Type} [Field K] (T : Trig K) (c : Car K) : Car K :=
  let cosf := T.cos (c.facing * M_PI / 180)
  let sinf := T.sin (c.facing * M_PI / 180)
  let vxm := cosf * c.vx - sinf * c.vz
  let vym := c.vy
  let vzm := sinf * c.vx + cosf * c.vz
  let sterzo := if c.controller.key Button.LEFT then c.sterzo + c.velSterzo else c.sterzo
  let sterzo := if c.controller.key Button.RIGHT then sterzo - c.velSterzo else sterzo
  let sterzo := sterzo * c.velRitornoSterzo
  let vzm := if c.controller.key Button.ACC then vzm - c.accMax else vzm
  let vzm := if c.controller.key Button.DEC then vzm + c.accMax else vzm
  let vxm := vxm * c.attritoX
  let vym := vym * c.attritoY
  let vzm := vzm * c.attritoZ
  let facing := c.facing - (vzm * c.grip) * sterzo
  let mozzoA := c.mozzoA + (360 * vzm) / (2 * M_PI * c.raggioRuotaA)
  let mozzoP := c.mozzoP + (360 * vzm) / (2 * M_PI * c.raggioRuotaP)
  let vx := cosf * vxm + sinf * vzm
  let vy := vym
  let vz := -sinf * vxm + cosf * vzm
  { c with
    sterzo := sterzo
    facing := facing
    mozzoA := mozzoA
    mozzoP := mozzoP
    vx := vx
    vy := vy
    vz := vz
    px := c.px + vx
    py := c.py + vy
    pz := c.pz + vz }

/-- The velocity along the car's Z axis, as `Car::DoStep` computes it from the velocity in
world coordinates: `vzm = +sinf * vx + cosf * vz`. -/
def vzm {K : Type} [Field K] (T : Trig K) (c : Car K) : K :=
  T.sin (c.facing * M_PI / 180) * c.vx + T.cos (c.facing * M_PI / 180) * c.vz

/-- The method `Car::Init` with rounding: a literal such as `3.4` is a `double`, stored in
a `float` member. -/
def InitRounded {K : Type} [Field K] (fl fd : K → K) : Car K :=
  { px := 0
    py := 0
    pz := 0
    facing := 0
    mozzoA := 0
    mozzoP := 0
    sterzo := 0
    vx := 0
    vy := 0
    vz := 0
    controller := Controller.Init
    velSterzo := fl (fd (34 / 10))
    velRitornoSterzo := fl (fd (93 / 100))
    accMax := fl (fd (11 / 10000))
    attritoZ := fl (fd (991 / 1000))
    attritoX := fl (fd (9 / 10))
    attritoY := fl (fd 1)
    raggioRuotaA := fl (fd (25 / 100))
    raggioRuotaP := fl (fd (35 / 100))
    grip := fl (fd (45 / 100)) }

/-- The method `Car::DoStep` with rounding. -/
def DoStepRounded {K : Type} [Field K] (fl fd : K → K) (T : Trig K) (c : Car K) : Car K :=
  let cosf := fl (T.cos (fd (fd (c.facing * M_PI) / 180)))
  let sinf := fl (T.sin (fd (fd (c.facing * M_PI) / 180)))
  let vxm := fl (fl (cosf * c.vx) - fl (sinf * c.vz))
  let vym := c.vy
  let vzm := fl (fl (sinf * c.vx) + fl (cosf * c.vz))
  let sterzo :=
    if c.controller.key Button.LEFT then fl (c.sterzo + c.velSterzo) else c.sterzo
  let sterzo := if c.controller.key Button.RIGHT then fl (sterzo - c.velSterzo) else sterzo
  let sterzo := fl (sterzo * c.velRitornoSterzo)
  let vzm := if c.controller.key Button.ACC then fl (vzm - c.accMax) else vzm
  let vzm := if c.controller.key Button.DEC then fl (vzm + c.accMax) else vzm
  let vxm := fl (vxm * c.attritoX)
  let vym := fl (vym * c.attritoY)
  let vzm := fl (vzm * c.attritoZ)
  let facing := fl (c.facing - fl (fl (vzm * c.grip) * sterzo))
  let mozzoA :=
    fl (c.mozzoA + fl (fd (fd (360 * vzm) / fd (fd (2 * M_PI) * c.raggioRuotaA))))
  let mozzoP :=
    fl (c.mozzoP + fl (fd (fd (360 * vzm) / fd (fd (2 * M_PI) * c.raggioRuotaP))))
  let vx := fl (fl (cosf * vxm) + fl (sinf * vzm))
  let vy := vym
  let vz := fl (fl (-sinf * vxm) + fl (cosf * vzm))
  { c with
    sterzo := sterzo
    facing := facing
    mozzoA := mozzoA
    mozzoP := mozzoP
    vx := vx
    vy := vy
    vz := vz
    px := fl (c.px + vx)
    py := fl (c.py + vy)
    pz := fl (c.pz + vz) }

end Car

/-- A cube at (100, 2.5, -50), yaw 0: out of lateral reach of a craft on the Z axis. -/
def BadCube.aside : BadCube :=
  BadCube.new (Flt.fin 100) (Flt.fin (5 / 2)) (Flt.fin (-50)) false (Flt.fin 0)

/-- A cube at (0, 2.5, 5), yaw 0: behind a craft that starts at the origin and moves along
`-Z`. -/
def BadCube.behind : BadCube :=
  BadCube.new (Flt.fin 0) (Flt.fin (5 / 2)) (Flt.fin 5) false (Flt.fin 0)

/-- A started session for concrete evaluation: the spaceship of `Decls.straightLine` at the
origin, one ring at (0, 1.5, -5), the given cubes, penalty countdown `p`. -/
def Game.sample (E : Decls Nat) (p : Int) (cubes : List BadCube) : Game Nat :=
  { m_state := State.GAME
    m_camera_type := CAMERA_BACK_CAR
    m_game_started := true
    m_deadline_time := E.RING_TIME
    m_last_time := 0
    m_penalty_time := p
    m_num_rings := 1
    m_cur_ring_index := 0
    m_num_cubes := cubes.length
    m_ssh := some 0
    m_rings := [Ring.new (Flt.fin 0) (Flt.fin (3 / 2)) (Flt.fin (-5)) false (Flt.fin 0)]
    m_cubes := cubes }

/-- The game constructed with `num_rings` checkpoints and initialised: the spaceship of
`Decls.straightLine` (unsigned penalty, `RING_TIME` 10000) at the origin, every ring at
(0, 1.5, -5), every cube at (100, 2.5, -50). -/
def Game.placed (num_rings : Nat) : Game Nat :=
  Game.init (Decls.straightLine 10000 true) (Game.new (Decls.straightLine 10000 true) num_rings)
    0 (fun _ => (Flt.fin 0, Flt.fin (-5))) (fun _ => (Flt.fin 100, Flt.fin (-50)))

/-- The game constructed with one checkpoint and initialised: the spaceship of
`Decls.straightLine` at the origin, the ring at (0, 1.5, -5), the first cube at (0, 2.5, 5)
and the nine others at (100, 2.5, -50). -/
def Game.oneCubeBehind : Game Nat :=
  Game.init (Decls.straightLine 10000 true) (Game.new (Decls.straightLine 10000 true) 1)
    0 (fun _ => (Flt.fin 0, Flt.fin (-5)))
    (fun i => if i = 0 then (Flt.fin 0, Flt.fin 5) else (Flt.fin 100, Flt.fin (-50)))

/-- Values of `cos` and `sin` for evaluation over the rationals: 1 and 0 at argument 0,
3/5 and 4/5 elsewhere. -/
def Trig.sample : Trig ℚ :=
  { cos := fun a => if a = 0 then 1 else 3 / 5
    sin := fun a => if a = 0 then 0 else 4 / 5 }

theorem Flt.eq_INFINITY_iff (a : Flt) : Flt.eq a INFINITY = true ↔ a = INFINITY := by
  cases a <;> simp [Flt.eq, INFINITY]

theorem Ring.two_s_R : Flt.mul (Flt.fin 2) Ring.s_R = Flt.fin (2 * (5 / 2)) := by
  simp [Flt.mul, Ring.s_R]

theorem Ring.neg_two_s_R : Flt.mul (Flt.fin (-2)) Ring.s_R = Flt.fin (-(2 * (5 / 2))) := by
  simp [Flt.mul, Ring.s_R]

theorem Ring.checkCrossing_of_triggered (L : Libm) (r : Ring) (x z : Flt)
    (h : r.m_triggered = true) : Ring.checkCrossing L r x z = r := by
  simp [Ring.checkCrossing, h]

theorem Ring.checkCrossing3D_of_triggered (L : Libm) (r : Ring) (x y z : Flt)
    (h : r.m_triggered = true) : Ring.checkCrossing3D L r x y z = r := by
  simp [Ring.checkCrossing3D, h]

theorem Ring.checkCrossing_old_z (L : Libm) (r : Ring) (x z : Flt)
    (h : r.m_triggered = false) :
    (Ring.checkCrossing L r x z).m_ship_old_z = Ring.zLocal L r x z := by
  simp [Ring.checkCrossing, h, Ring.zLocal]

theorem Ring.checkCrossing_flag (L : Libm) (r : Ring) (x z : Flt)
    (h : r.m_triggered = false) :
    (Ring.checkCrossing L r x z).m_triggered =
      (!Flt.eq r.m_ship_old_z INFINITY &&
        ((Flt.ge (Ring.zLocal L r x z) (Flt.fin 0) && Flt.lt r.m_ship_old_z (Flt.fin 0)) ||
          (Flt.le (Ring.zLocal L r x z) (Flt.fin 0) && Flt.gt r.m_ship_old_z (Flt.fin 0))) &&
        (Flt.lt (Ring.xLocal L r x z) (Flt.fin (2 * (5 / 2))) &&
          Flt.gt (Ring.xLocal L r x z) (Flt.fin (-(2 * (5 / 2)))))) := by
  simp only [Ring.checkCrossing, h, Ring.two_s_R, Ring.neg_two_s_R, Ring.xLocal, Ring.zLocal]
  simp only [Bool.not_false, if_true]
  split
  · next hc => rw [hc]
  · next hc => rw [Bool.not_eq_true] at hc; rw [hc]; exact h

/-- C1: on a ring that is not yet triggered, `checkCrossing(x, z)` sets the triggered flag
exactly when the stored previous depth is not the INFINITY sentinel, the local lateral
coordinate lies strictly between -2R and 2R (R = 2.5), and the local depth passed through
zero relative to the stored previous depth; in every case the stored previous depth becomes
the local depth. -/
theorem Ring.checkCrossing_spec (L : Libm) (r : Ring) (x z : Flt)
    (h : r.m_triggered = false) :
    ((Ring.checkCrossing L r x z).m_triggered = true ↔
      r.m_ship_old_z ≠ INFINITY ∧
      (Flt.lt (Flt.fin (-(2 * (5 / 2)))) (Ring.xLocal L r x z) = true ∧
        Flt.lt (Ring.xLocal L r x z) (Flt.fin (2 * (5 / 2))) = true) ∧
      ((Flt.ge (Ring.zLocal L r x z) (Flt.fin 0) = true ∧
          Flt.lt r.m_ship_old_z (Flt.fin 0) = true) ∨
        (Flt.le (Ring.zLocal L r x z) (Flt.fin 0) = true ∧
          Flt.gt r.m_ship_old_z (Flt.fin 0) = true))) ∧
    (Ring.checkCrossing L r x z).m_ship_old_z = Ring.zLocal L r x z := by
  refine ⟨?_, Ring.checkCrossing_old_z L r x z h⟩
  have hne : r.m_ship_old_z ≠ INFINITY ↔ Flt.eq r.m_ship_old_z INFINITY = false := by
    rw [← Bool.not_eq_true, Flt.eq_INFINITY_iff]
  rw [hne, Ring.checkCrossing_flag L r x z h]
  simp only [Flt.gt]
  generalize Flt.eq r.m_ship_old_z INFINITY = a
  generalize Flt.ge (Ring.zLocal L r x z) (Flt.fin 0) = b
  generalize Flt.le (Ring.zLocal L r x z) (Flt.fin 0) = c
  generalize Flt.lt r.m_ship_old_z (Flt.fin 0) = d
  generalize Flt.lt (Flt.fin 0) r.m_ship_old_z = e
  generalize Flt.lt (Ring.xLocal L r x z) (Flt.fin (2 * (5 / 2))) = f
  generalize Flt.lt (Flt.fin (-(2 * (5 / 2)))) (Ring.xLocal L r x z) = k
  cases a <;> cases b <;> cases c <;> cases d <;> cases e <;> cases f <;> cases k <;> simp

/-- A ring placed not yet triggered, with previous depth -3, for concrete evaluation. -/
theorem Ring.checkCrossing_spec_witness :
    (Ring.mk false (Flt.fin 0) (Flt.fin (3 / 2)) (Flt.fin (-5)) (Flt.fin 0) (Flt.fin 3)
        false).m_triggered = false ∧
    ((Ring.checkCrossing Libm.yawZero
        (Ring.mk false (Flt.fin 0) (Flt.fin (3 / 2)) (Flt.fin (-5)) (Flt.fin 0) (Flt.fin 3) false)
        (Flt.fin 0) (Flt.fin (-6))).m_triggered = true) := by
  have h := Ring.checkCrossing_spec Libm.yawZero
    (Ring.mk false (Flt.fin 0) (Flt.fin (3 / 2)) (Flt.fin (-5)) (Flt.fin 0) (Flt.fin 3) false)
    (Flt.fin 0) (Flt.fin (-6)) rfl
  refine ⟨rfl, h.1.2 ?_⟩
  simp [Ring.xLocal, Ring.zLocal, Libm.yawZero, Flt.sub, Flt.add, Flt.mul, Flt.neg, Flt.lt,
    Flt.le, Flt.gt, Flt.ge, Flt.eq, INFINITY, M_PI, Flt.div]
  norm_num

/-- C2: on a freshly constructed ring, whatever its placement and yaw, the first call of
`checkCrossing` (either overload, any craft position) leaves the ring not triggered; it
only records the local depth. -/
theorem Ring.first_call_not_triggered (L : Libm) (px py pz : Flt) (flight_mode : Bool)
    (angle : Flt) (x y z : Flt) :
    Ring.checkCrossing L (Ring.new px py pz flight_mode angle) x z =
        { Ring.new px py pz flight_mode angle with
          m_ship_old_z := Ring.zLocal L (Ring.new px py pz flight_mode angle) x z } ∧
      Ring.checkCrossing3D L (Ring.new px py pz flight_mode angle) x y z =
        { Ring.new px py pz flight_mode angle with
          m_ship_old_z := Ring.zLocal L (Ring.new px py pz flight_mode angle) x z } ∧
      (Ring.checkCrossing L (Ring.new px py pz flight_mode angle) x z).isTriggered = false ∧
      (Ring.checkCrossing3D L (Ring.new px py pz flight_mode angle) x y z).isTriggered =
        false := by
  simp [Ring.checkCrossing, Ring.checkCrossing3D, Ring.new, Flt.eq, INFINITY, Ring.zLocal,
    Ring.isTriggered]

/-- C3: once a ring is triggered, any sequence of later `checkCrossing` calls (either
overload, any craft position) leaves the whole ring unchanged, so it stays triggered. -/
theorem Ring.latching (L : Libm) (r : Ring) (h : r.m_triggered = true) (cs : List Ring.Call) :
    Ring.calls L r cs = r ∧ (Ring.calls L r cs).isTriggered = true ∧
      (∀ x z, Ring.checkCrossing L r x z = r) ∧
      (∀ x y z, Ring.checkCrossing3D L r x y z = r) := by
  have hcalls : Ring.calls L r cs = r := by
    unfold Ring.calls
    induction cs with
    | nil => rfl
    | cons c cs ih =>
      have hc : Ring.call L r c = r := by
        cases c with
        | flat x z => exact Ring.checkCrossing_of_triggered L r x z h
        | flight x y z => exact Ring.checkCrossing3D_of_triggered L r x y z h
      rw [List.foldl_cons, hc]
      exact ih
  refine ⟨hcalls, ?_, fun x z => Ring.checkCrossing_of_triggered L r x z h,
    fun x y z => Ring.checkCrossing3D_of_triggered L r x y z h⟩
  rw [hcalls]
  exact h

/-- A triggered ring keeps its state through a 2D call on its plane and a 3D call far off. -/
theorem Ring.latching_witness :
    (Ring.mk false (Flt.fin 0) (Flt.fin (3 / 2)) (Flt.fin (-5)) (Flt.fin 0) (Flt.fin 3)
        true).m_triggered = true ∧
    Ring.calls Libm.yawZero
        (Ring.mk false (Flt.fin 0) (Flt.fin (3 / 2)) (Flt.fin (-5)) (Flt.fin 0) (Flt.fin 3) true)
        [Ring.Call.flat (Flt.fin 0) (Flt.fin (-5)),
          Ring.Call.flight (Flt.fin 40) (Flt.fin 9) (Flt.fin 7)] =
      Ring.mk false (Flt.fin 0) (Flt.fin (3 / 2)) (Flt.fin (-5)) (Flt.fin 0) (Flt.fin 3) true :=
  ⟨rfl, (Ring.latching Libm.yawZero
    (Ring.mk false (Flt.fin 0) (Flt.fin (3 / 2)) (Flt.fin (-5)) (Flt.fin 0) (Flt.fin 3) true)
    rfl _).1⟩

/-- C4: a freshly constructed cube placed at (0, 2.5, 5) with yaw 0 signals a crossing on
its first call when the craft is at the origin: the local depth is -5 and the stored
previous depth is still the sentinel, which compares greater than zero. -/
theorem BadCube.first_call_signals :
    (BadCube.checkCrossing Libm.yawZero
        (BadCube.new (Flt.fin 0) (Flt.fin (5 / 2)) (Flt.fin 5) false (Flt.fin 0))
        (Flt.fin 0) (Flt.fin 0)).2 = true ∧
    (BadCube.checkCrossing3D Libm.yawZero
        (BadCube.new (Flt.fin 0) (Flt.fin (5 / 2)) (Flt.fin 5) false (Flt.fin 0))
        (Flt.fin 0) (Flt.fin 0) (Flt.fin 0)).2 = true := by
  constructor
  · simp [BadCube.checkCrossing, BadCube.new, Libm.yawZero, Flt.sub, Flt.add, Flt.mul, Flt.neg,
      Flt.lt, Flt.le, Flt.gt, Flt.ge, Flt.eq, INFINITY, BadCube.side, M_PI, Flt.div]
  · simp [BadCube.checkCrossing3D, BadCube.new, Libm.yawZero, Flt.sub, Flt.add, Flt.mul,
      Flt.neg, Flt.lt, Flt.le, Flt.gt, Flt.ge, Flt.eq, INFINITY, BadCube.side, M_PI, Flt.div]
    norm_num

/-! ## Properties of the state machine -/

/-- C5: from the constructed game, the requests MENU then END are both applied: the request
MENU -> END is not rejected, the state becomes END and no diagnostic is emitted. -/
theorem Game.changeState_MENU_END_applied :
    (Game.changeState
        (Game.changeState (Game.new (Decls.straightLine 10000 true) 1) State.MENU).1
        State.END).1.m_state = State.END ∧
    (Game.changeState (Game.new (Decls.straightLine 10000 true) 1) State.MENU).1.m_state =
      State.MENU ∧
    (Game.changeState
        (Game.changeState (Game.new (Decls.straightLine 10000 true) 1) State.MENU).1
        State.END).2 = [] := by
  simp [Game.changeState, Game.new]

/-- C6: from a game in state SPLASH the request END emits the diagnostic and is applied all
the same: the state becomes END. The request SPLASH from state GAME is dropped. -/
theorem Game.changeState_SPLASH_END_applied :
    (Game.changeState
        { Game.new (Decls.straightLine 10000 true) 1 with m_state := State.SPLASH }
        State.END).2 = [Diag.splashToEnd] ∧
    (Game.changeState
        { Game.new (Decls.straightLine 10000 true) 1 with m_state := State.SPLASH }
        State.END).1.m_state = State.END ∧
    Game.changeState (Game.new (Decls.straightLine 10000 true) 1) State.SPLASH =
      (Game.new (Decls.straightLine 10000 true) 1, [Diag.backToSplash]) := by
  simp [Game.changeState, Game.new]

/-- C7: each legal transition takes effect. From state GAME the requests MENU and END end
in MENU and END; from state MENU the request GAME ends in GAME; a request for the current
state changes nothing. No other member changes and no diagnostic is emitted. -/
theorem Game.changeState_legal {Ship : Type} (g : Game Ship) :
    Game.changeState { g with m_state := State.GAME } State.MENU =
        ({ g with m_state := State.MENU }, []) ∧
      Game.changeState { g with m_state := State.GAME } State.END =
        ({ g with m_state := State.END }, []) ∧
      Game.changeState { g with m_state := State.MENU } State.GAME =
        ({ g with m_state := State.GAME }, []) ∧
      Game.changeState g g.m_state = (g, []) := by
  simp [Game.changeState]


theorem Decls.toPenalty_of_range {Ship : Type} (E : Decls Ship) (v : Int) (h0 : 0 ≤ v)
    (h1 : v < 4294967296) : E.toPenalty v = v := by
  unfold Decls.toPenalty
  split
  · exact Int.emod_eq_of_lt h0 h1
  · rfl

theorem Game.gameAction_some {Ship : Type} (E : Decls Ship) (L : Libm) (g : Game Ship)
    (ticks : Int) (ship : Ship) (ring : Ring) (hs : g.m_ssh = some ship)
    (hr : g.m_rings[g.m_cur_ring_index]? = some ring) :
    ∃ g1, Game.gameAction E L g ticks = some g1 ∧
      g1.m_cubes =
        (Game.cubesLoop L (E.x (E.execute ship)) (E.z (E.execute ship)) g.m_cubes).1 ∧
      g1.m_penalty_time =
        (if (Game.cubesLoop L (E.x (E.execute ship)) (E.z (E.execute ship)) g.m_cubes).2
          then E.toPenalty 6000 else Game.penaltyBeforeLoop E g) := by
  unfold Game.gameAction Game.penaltyBeforeLoop
  cases hst : g.m_game_started <;>
    cases hc : (Ring.checkCrossing L ring (E.x (E.execute ship))
      (E.z (E.execute ship))).isTriggered <;>
    simp [hs, hr, hst, hc]

theorem Game.gameAction_inv {Ship : Type} (E : Decls Ship) (L : Libm) (g g1 : Game Ship)
    (ticks : Int) (h : Game.gameAction E L g ticks = some g1) :
    ∃ ship ring, g.m_ssh = some ship ∧ g.m_rings[g.m_cur_ring_index]? = some ring := by
  unfold Game.gameAction at h
  cases hs : g.m_ssh with
  | none => simp [hs] at h
  | some ship =>
    cases hr : g.m_rings[g.m_cur_ring_index]? with
    | none => cases hst : g.m_game_started <;> simp [hs, hr, hst] at h
    | some ring => exact ⟨ship, ring, rfl, rfl⟩

theorem Game.cubesLoop_miss (L : Libm) (x z : Flt) (cs : List BadCube)
    (h : ∀ c ∈ cs, (c.checkCrossing L x z).2 = false) :
    Game.cubesLoop L x z cs = (cs.map (fun c => (c.checkCrossing L x z).1), false) := by
  induction cs with
  | nil => rfl
  | cons c cs ih =>
    have hc := h c (List.mem_cons_self c cs)
    have ih1 := ih (fun b hb => h b (List.mem_cons_of_mem c hb))
    simp [Game.cubesLoop, hc, ih1]

theorem Game.cubesLoop_hit (L : Libm) (x z : Flt) (cs : List BadCube)
    (h : ∃ c ∈ cs, (c.checkCrossing L x z).2 = true) :
    ∃ pre c post, cs = pre ++ c :: post ∧
      (∀ b ∈ pre, (b.checkCrossing L x z).2 = false) ∧
      (c.checkCrossing L x z).2 = true ∧
      Game.cubesLoop L x z cs =
        (pre.map (fun b => (b.checkCrossing L x z).1) ++ (c.checkCrossing L x z).1 :: post,
          true) := by
  induction cs with
  | nil => simp at h
  | cons c cs ih =>
    cases hc : (c.checkCrossing L x z).2 with
    | true =>
      refine ⟨[], c, cs, rfl, ?_, hc, ?_⟩
      · intro b hb
        cases hb
      · simp [Game.cubesLoop, hc]
    | false =>
      have h1 : ∃ b ∈ cs, (b.checkCrossing L x z).2 = true := by
        obtain ⟨b, hb, hbt⟩ := h
        rcases List.mem_cons.1 hb with rfl | hb1
        · rw [hc] at hbt
          cases hbt
        · exact ⟨b, hb1, hbt⟩
      obtain ⟨pre, d, post, hcs, hpre, hd, hloop⟩ := ih h1
      refine ⟨c :: pre, d, post, ?_, ?_, hd, ?_⟩
      · rw [hcs]
        rfl
      · intro b hb
        rcases List.mem_cons.1 hb with rfl | hb1
        · exact hc
        · exact hpre b hb1
      · simp [Game.cubesLoop, hc, hloop]

theorem Game.changeState_penalty {Ship : Type} (g : Game Ship) (s : State) :
    (Game.changeState g s).1.m_penalty_time = g.m_penalty_time := by
  cases hs : g.m_state <;> cases s <;> simp [Game.changeState, hs]

theorem Game.gameOnKey_penalty {Ship : Type} (E : Decls Ship) (g g1 : Game Ship) (k : Key)
    (pressed : Bool) (ticks : Int) (log : List Diag)
    (h : Game.gameOnKey E g k pressed ticks = some (g1, log)) :
    g1.m_penalty_time = g.m_penalty_time := by
  have hcs := Game.changeState_penalty g State.MENU
  unfold Game.gameOnKey at h
  cases k <;> cases pressed <;> cases hst : g.m_game_started <;> cases hsh : g.m_ssh <;>
    simp [hst, hsh, Game.change_camera_type] at h <;>
    first
      | (obtain ⟨h1, _⟩ := h; rw [← h1])
      | (have h2 := congrArg Prod.fst h; simp only at h2; rw [← h2]; exact hcs)


theorem Game.init_penalty {Ship : Type} (E : Decls Ship) (g : Game Ship) (ship : Ship)
    (ringCoord cubeCoord : Nat → Flt × Flt) :
    (Game.init E g ship ringCoord cubeCoord).m_penalty_time = g.m_penalty_time := rfl

theorem Game.penaltyStep_multiple {Ship : Type} (E : Decls Ship) (k : Nat) (hk : k ≤ 60) :
    Game.penaltyStep E (100 * (k : Int)) = 100 * ((k - 1 : Nat) : Int) := by
  unfold Game.penaltyStep
  rcases Nat.eq_zero_or_pos k with h0 | hpos
  · subst h0
    simp
  · have h1 : (0 : Int) < 100 * (k : Int) := by omega
    rw [if_pos h1, Decls.toPenalty_of_range E _ (by omega) (by omega)]
    omega

theorem Game.reachable_penalty_multiple {Ship : Type} (E : Decls Ship) (L : Libm)
    (g : Game Ship) (h : Game.Reachable E L g) :
    ∃ k : Nat, k ≤ 60 ∧ g.m_penalty_time = 100 * (k : Int) := by
  induction h with
  | ctor n => exact ⟨0, by omega, rfl⟩
  | init ship rc cc _ ih => exact ih
  | key k pressed ticks log _ hkey ih =>
    rw [Game.gameOnKey_penalty E _ _ k pressed ticks log hkey]
    exact ih
  | @tick g g1 ticks _ htick ih =>
    obtain ⟨ship, ring, hs, hr⟩ := Game.gameAction_inv E L g g1 ticks htick
    obtain ⟨g2, h2, _, hpen⟩ := Game.gameAction_some E L g ticks ship ring hs hr
    rw [htick] at h2
    cases h2
    rw [hpen]
    obtain ⟨k, hk, hkp⟩ := ih
    split
    · exact ⟨60, le_refl 60, Decls.toPenalty_of_range E 6000 (by omega) (by omega)⟩
    · unfold Game.penaltyBeforeLoop
      split
      · rw [hkp, Game.penaltyStep_multiple E k hk]
        exact ⟨k - 1, by omega, rfl⟩
      · exact ⟨k, hk, hkp⟩

/-- C8: in every session state reached from the constructed game by `init`, ticks and key
events, whatever the obstacles signal, the penalty countdown lies in 0..6000. -/
theorem Game.penalty_invariant {Ship : Type} (E : Decls Ship) (L : Libm) (g : Game Ship)
    (h : Game.Reachable E L g) : 0 ≤ g.m_penalty_time ∧ g.m_penalty_time ≤ 6000 := by
  obtain ⟨k, hk, hkp⟩ := Game.reachable_penalty_multiple E L g h
  omega

/-- C9: in every started session state reached from the constructed game by `init`, ticks
and key events, with penalty countdown p, a tick in which no obstacle signals returns and
leaves the countdown max(p - 100, 0): not below zero, strictly smaller than p when p > 0,
and 0 when p = 0. -/
theorem Game.penalty_decay {Ship : Type} (E : Decls Ship) (L : Libm) (g : Game Ship)
    (ticks : Int) (ship : Ship) (ring : Ring) (hreach : Game.Reachable E L g)
    (hs : g.m_ssh = some ship) (hr : g.m_rings[g.m_cur_ring_index]? = some ring)
    (hstart : g.m_game_started = true)
    (hmiss : ∀ c ∈ g.m_cubes,
      (c.checkCrossing L (E.x (E.execute ship)) (E.z (E.execute ship))).2 = false) :
    ∃ g1, Game.gameAction E L g ticks = some g1 ∧ 0 ≤ g.m_penalty_time ∧
      0 ≤ g1.m_penalty_time ∧
      (0 < g.m_penalty_time → g1.m_penalty_time < g.m_penalty_time) ∧
      (g.m_penalty_time = 0 → g1.m_penalty_time = 0) ∧
      g1.m_penalty_time = max (g.m_penalty_time - 100) 0 := by
  obtain ⟨g1, h1, _, hpen⟩ := Game.gameAction_some E L g ticks ship ring hs hr
  obtain ⟨k, hk, hkp⟩ := Game.reachable_penalty_multiple E L g hreach
  refine ⟨g1, h1, by omega, ?_⟩
  rw [Game.cubesLoop_miss L _ _ g.m_cubes hmiss] at hpen
  simp only [Bool.false_eq_true, if_false, Game.penaltyBeforeLoop, hstart, if_true] at hpen
  rw [hpen, hkp, Game.penaltyStep_multiple E k hk]
  refine ⟨by omega, by omega, by omega, ?_⟩
  rcases Nat.eq_zero_or_pos k with h0 | hpos
  · subst h0
    simp
  · rw [max_eq_left (by omega)]
    omega


/-- C10: a tick of a game with a spaceship and an active ring returns. If some obstacle
signals at the craft position, the penalty countdown after the tick is 6000, the cubes up
to and including the first that signals hold the state their `checkCrossing` call leaves,
and the cubes after it are unchanged. If no obstacle signals, the countdown is what it was
when the loop started and every cube was evaluated. -/
theorem Game.first_hit_wins {Ship : Type} (E : Decls Ship) (L : Libm) (g : Game Ship)
    (ticks : Int) (ship : Ship) (ring : Ring) (hs : g.m_ssh = some ship)
    (hr : g.m_rings[g.m_cur_ring_index]? = some ring) :
    ∃ g1, Game.gameAction E L g ticks = some g1 ∧
      ((∃ c ∈ g.m_cubes,
          (c.checkCrossing L (E.x (E.execute ship)) (E.z (E.execute ship))).2 = true) →
        g1.m_penalty_time = 6000 ∧
        ∃ pre c post, g.m_cubes = pre ++ c :: post ∧
          (∀ b ∈ pre,
            (b.checkCrossing L (E.x (E.execute ship)) (E.z (E.execute ship))).2 = false) ∧
          (c.checkCrossing L (E.x (E.execute ship)) (E.z (E.execute ship))).2 = true ∧
          g1.m_cubes =
            pre.map (fun b =>
                (b.checkCrossing L (E.x (E.execute ship)) (E.z (E.execute ship))).1) ++
              (c.checkCrossing L (E.x (E.execute ship)) (E.z (E.execute ship))).1 :: post) ∧
      ((∀ c ∈ g.m_cubes,
          (c.checkCrossing L (E.x (E.execute ship)) (E.z (E.execute ship))).2 = false) →
        g1.m_penalty_time = Game.penaltyBeforeLoop E g ∧
        g1.m_cubes = g.m_cubes.map (fun b =>
          (b.checkCrossing L (E.x (E.execute ship)) (E.z (E.execute ship))).1)) := by
  obtain ⟨g1, h1, hcubes, hpen⟩ := Game.gameAction_some E L g ticks ship ring hs hr
  refine ⟨g1, h1, ?_, ?_⟩
  · intro hhit
    obtain ⟨pre, c, post, hsplit, hpre, hc, hloop⟩ := Game.cubesLoop_hit L _ _ g.m_cubes hhit
    rw [hloop] at hcubes hpen
    refine ⟨?_, pre, c, post, hsplit, hpre, hc, hcubes⟩
    rw [hpen]
    exact Decls.toPenalty_of_range E 6000 (by omega) (by omega)
  · intro hmiss
    rw [Game.cubesLoop_miss L _ _ g.m_cubes hmiss] at hcubes hpen
    exact ⟨by simpa using hpen, hcubes⟩

/-- A started session with countdown 300 whose second cube signals: one tick leaves 6000. -/
theorem Game.first_hit_wins_witness :
    ∃ g1, Game.gameAction (Decls.straightLine 10000 true) Libm.yawZero
        (Game.sample (Decls.straightLine 10000 true) 300
          [BadCube.aside, BadCube.behind, BadCube.behind]) 16 = some g1 ∧
      g1.m_penalty_time = 6000 := by
  obtain ⟨g1, h1, hhit, _⟩ := Game.first_hit_wins (Decls.straightLine 10000 true)
    Libm.yawZero (Game.sample (Decls.straightLine 10000 true) 300
      [BadCube.aside, BadCube.behind, BadCube.behind]) 16 0
    (Ring.new (Flt.fin 0) (Flt.fin (3 / 2)) (Flt.fin (-5)) false (Flt.fin 0)) rfl rfl
  refine ⟨g1, h1, (hhit ⟨BadCube.behind, by simp [Game.sample], ?_⟩).1⟩
  simp [BadCube.checkCrossing, BadCube.behind, BadCube.new, Libm.yawZero,
    Decls.straightLine, Flt.sub, Flt.add, Flt.mul, Flt.neg, Flt.lt, Flt.le, Flt.gt,
    Flt.ge, Flt.eq, INFINITY, BadCube.side, M_PI, Flt.div]
  norm_num

/-! ## Checkpoint progression and session start -/

theorem Game.gameAction_fields {Ship : Type} (E : Decls Ship) (L : Libm) (g : Game Ship)
    (ticks : Int) (ship : Ship) (ring : Ring) (hs : g.m_ssh = some ship)
    (hr : g.m_rings[g.m_cur_ring_index]? = some ring) :
    ∃ g1, Game.gameAction E L g ticks = some g1 ∧
      g1.m_ssh = some (E.execute ship) ∧
      g1.m_game_started = g.m_game_started ∧
      g1.m_rings = g.m_rings.set g.m_cur_ring_index
        (ring.checkCrossing L (E.x (E.execute ship)) (E.z (E.execute ship))) ∧
      g1.m_cur_ring_index =
        (if (ring.checkCrossing L (E.x (E.execute ship)) (E.z (E.execute ship))).isTriggered
          then g.m_cur_ring_index + 1 else g.m_cur_ring_index) ∧
      g1.m_deadline_time =
        (if g.m_game_started then g.m_deadline_time - (ticks - g.m_last_time)
          else g.m_deadline_time) +
        (if (ring.checkCrossing L (E.x (E.execute ship)) (E.z (E.execute ship))).isTriggered
          then E.RING_TIME else 0) ∧
      g1.m_last_time = (if g.m_game_started then ticks else g.m_last_time) := by
  unfold Game.gameAction
  cases hst : g.m_game_started <;>
    cases hc : (Ring.checkCrossing L ring (E.x (E.execute ship))
      (E.z (E.execute ship))).isTriggered <;>
    simp [hs, hr, hst, hc]

theorem Game.gameAction_none_of_cursor {Ship : Type} (E : Decls Ship) (L : Libm)
    (g : Game Ship) (ticks : Int) (h : g.m_rings[g.m_cur_ring_index]? = none) :
    Game.gameAction E L g ticks = none := by
  unfold Game.gameAction
  cases hs : g.m_ssh with
  | none => rfl
  | some ship => cases hst : g.m_game_started <;> simp [h, hst]

theorem Game.ticks_progress {Ship : Type} (E : Decls Ship) (L : Libm) (ts : List Int) :
    ∀ g g2 : Game Ship, g.m_game_started = true → Game.ticks E L g ts = some g2 →
      g2.m_game_started = true ∧
      g2.m_rings.length = g.m_rings.length ∧
      g.m_cur_ring_index ≤ g2.m_cur_ring_index ∧
      (g.m_cur_ring_index ≤ g.m_rings.length → g2.m_cur_ring_index ≤ g.m_rings.length) ∧
      g2.m_deadline_time - g.m_deadline_time + (g2.m_last_time - g.m_last_time) =
        E.RING_TIME * ((g2.m_cur_ring_index : Int) - (g.m_cur_ring_index : Int)) := by
  induction ts with
  | nil =>
    intro g g2 hst h
    simp only [Game.ticks, Option.some.injEq] at h
    subst h
    simp [hst]
  | cons t ts ih =>
    intro g g2 hst h
    cases hg : Game.gameAction E L g t with
    | none => simp [Game.ticks, hg] at h
    | some g1 =>
      simp only [Game.ticks, hg] at h
      obtain ⟨ship, ring, hs, hr⟩ := Game.gameAction_inv E L g g1 t hg
      obtain ⟨g1', h1, _, hst1, hrings, hcur, hdead, hlast⟩ :=
        Game.gameAction_fields E L g t ship ring hs hr
      rw [hg] at h1
      cases h1
      rw [hst] at hst1
      obtain ⟨i1, i2, i3, i4, i5⟩ := ih g1 g2 hst1 h
      have hlen : g1.m_rings.length = g.m_rings.length := by
        rw [hrings, List.length_set]
      have hlt : g.m_cur_ring_index < g.m_rings.length := by
        by_contra hcon
        rw [List.getElem?_eq_none (by omega)] at hr
        cases hr
      simp only [hst, if_true] at hdead hlast
      refine ⟨i1, by omega, ?_, ?_, ?_⟩
      · split at hcur <;> omega
      · intro _
        rw [← hlen]
        apply i4
        split at hcur <;> omega
      · split at hcur
        · next hc =>
          rw [if_pos hc] at hdead
          rw [hcur] at i5
          push_cast at i5
          linarith
        · next hc =>
          rw [if_neg hc] at hdead
          rw [hcur] at i5
          linarith

theorem Ring.axis_steps (L : Libm)
    (hL : L.cosf (Flt.fin 0) = Flt.fin 1 ∧ L.sinf (Flt.fin 0) = Flt.fin 0) :
    Ring.checkCrossing L (Ring.new (Flt.fin 0) (Flt.fin (3 / 2)) (Flt.fin (-5)) false (Flt.fin 0))
        (Flt.fin 0) (Flt.fin (-1)) =
      Ring.mk false (Flt.fin 0) (Flt.fin (3 / 2)) (Flt.fin (-5)) (Flt.fin 0) (Flt.fin 4) false ∧
    Ring.checkCrossing L
        (Ring.mk false (Flt.fin 0) (Flt.fin (3 / 2)) (Flt.fin (-5)) (Flt.fin 0) (Flt.fin 4) false)
        (Flt.fin 0) (Flt.fin (-2)) =
      Ring.mk false (Flt.fin 0) (Flt.fin (3 / 2)) (Flt.fin (-5)) (Flt.fin 0) (Flt.fin 3) false ∧
    Ring.checkCrossing L
        (Ring.mk false (Flt.fin 0) (Flt.fin (3 / 2)) (Flt.fin (-5)) (Flt.fin 0) (Flt.fin 3) false)
        (Flt.fin 0) (Flt.fin (-3)) =
      Ring.mk false (Flt.fin 0) (Flt.fin (3 / 2)) (Flt.fin (-5)) (Flt.fin 0) (Flt.fin 2) false ∧
    Ring.checkCrossing L
        (Ring.mk false (Flt.fin 0) (Flt.fin (3 / 2)) (Flt.fin (-5)) (Flt.fin 0) (Flt.fin 2) false)
        (Flt.fin 0) (Flt.fin (-4)) =
      Ring.mk false (Flt.fin 0) (Flt.fin (3 / 2)) (Flt.fin (-5)) (Flt.fin 0) (Flt.fin 1) false ∧
    Ring.checkCrossing L
        (Ring.mk false (Flt.fin 0) (Flt.fin (3 / 2)) (Flt.fin (-5)) (Flt.fin 0) (Flt.fin 1) false)
        (Flt.fin 0) (Flt.fin (-5)) =
      Ring.mk false (Flt.fin 0) (Flt.fin (3 / 2)) (Flt.fin (-5)) (Flt.fin 0) (Flt.fin 0) true := by
  refine ⟨?_, ?_, ?_, ?_, ?_⟩ <;>
    simp [Ring.checkCrossing, Ring.new, Flt.sub, Flt.add, Flt.mul, Flt.neg, Flt.div, Flt.eq,
      INFINITY, M_PI, hL.1, hL.2, Flt.lt, Flt.le, Flt.gt, Flt.ge, Ring.s_R] <;>
    norm_num

theorem Game.straightLine_tick (rt : Int) (pu : Bool) (L : Libm) (g : Game Nat) (t : Int)
    (k : Nat) (r : Ring) (hs : g.m_ssh = some k) (hr : g.m_rings = [r])
    (hc : g.m_cur_ring_index = 0) (hst : g.m_game_started = true) :
    ∃ g1, Game.gameAction (Decls.straightLine rt pu) L g t = some g1 ∧
      g1.m_ssh = some (k + 1) ∧
      g1.m_game_started = true ∧
      g1.m_rings = [r.checkCrossing L (Flt.fin 0) (Flt.fin (-((k : ℚ) + 1)))] ∧
      g1.m_cur_ring_index =
        (if (r.checkCrossing L (Flt.fin 0) (Flt.fin (-((k : ℚ) + 1)))).isTriggered
          then 1 else 0) ∧
      g1.m_deadline_time = g.m_deadline_time - (t - g.m_last_time) +
        (if (r.checkCrossing L (Flt.fin 0) (Flt.fin (-((k : ℚ) + 1)))).isTriggered
          then rt else 0) ∧
      g1.m_last_time = t := by
  have hr0 : g.m_rings[g.m_cur_ring_index]? = some r := by
    rw [hr, hc]
    rfl
  obtain ⟨g1, h1, h2, h3, h4, h5, h6, h7⟩ :=
    Game.gameAction_fields (Decls.straightLine rt pu) L g t k r hs hr0
  refine ⟨g1, h1, h2, by rw [h3, hst], ?_, ?_, ?_, ?_⟩
  · rw [h4, hr, hc]
    simp [Decls.straightLine]
  · rw [h5, hc]
    simp [Decls.straightLine]
  · rw [h6, hst]
    simp [Decls.straightLine]
  · rw [h7, hst]
    simp

theorem Game.straightLine_run (L : Libm)
    (hL : L.cosf (Flt.fin 0) = Flt.fin 1 ∧ L.sinf (Flt.fin 0) = Flt.fin 0) (rt : Int)
    (pu : Bool) (g : Game Nat) (t1 t2 t3 t4 t5 : Int) (hs : g.m_ssh = some 0)
    (hr : g.m_rings =
      [Ring.new (Flt.fin 0) (Flt.fin (3 / 2)) (Flt.fin (-5)) false (Flt.fin 0)])
    (hc : g.m_cur_ring_index = 0) (hst : g.m_game_started = true) :
    ∃ g1 g2 g3 g4 g5,
      Game.gameAction (Decls.straightLine rt pu) L g t1 = some g1 ∧
        Game.gameAction (Decls.straightLine rt pu) L g1 t2 = some g2 ∧
        Game.gameAction (Decls.straightLine rt pu) L g2 t3 = some g3 ∧
        Game.gameAction (Decls.straightLine rt pu) L g3 t4 = some g4 ∧
        Game.gameAction (Decls.straightLine rt pu) L g4 t5 = some g5 ∧
        (g1.m_ssh = some 1 ∧ g2.m_ssh = some 2 ∧ g3.m_ssh = some 3 ∧ g4.m_ssh = some 4 ∧
          g5.m_ssh = some 5) ∧
        (g1.m_rings.map Ring.isTriggered = [false] ∧ g1.m_cur_ring_index = 0 ∧
          g1.m_deadline_time = g.m_deadline_time - (t1 - g.m_last_time)) ∧
        (g2.m_rings.map Ring.isTriggered = [false] ∧ g2.m_cur_ring_index = 0 ∧
          g2.m_deadline_time = g1.m_deadline_time - (t2 - t1)) ∧
        (g3.m_rings.map Ring.isTriggered = [false] ∧ g3.m_cur_ring_index = 0 ∧
          g3.m_deadline_time = g2.m_deadline_time - (t3 - t2)) ∧
        (g4.m_rings.map Ring.isTriggered = [false] ∧ g4.m_cur_ring_index = 0 ∧
          g4.m_deadline_time = g3.m_deadline_time - (t4 - t3)) ∧
        (g5.m_rings.map Ring.isTriggered = [true] ∧ g5.m_cur_ring_index = 1 ∧
          g5.m_deadline_time = g4.m_deadline_time - (t5 - t4) + rt) := by
  obtain ⟨s1, s2, s3, s4, s5⟩ := Ring.axis_steps L hL
  obtain ⟨g1, a1, a2, a3, a4, a5, a6, a7⟩ :=
    Game.straightLine_tick rt pu L g t1 0 _ hs hr hc hst
  norm_num at a4 a5 a6
  rw [s1] at a4 a5 a6
  obtain ⟨g2, b1, b2, b3, b4, b5, b6, b7⟩ := Game.straightLine_tick rt pu L g1 t2 1 _ a2 a4
    (by simpa [Ring.isTriggered] using a5) a3
  norm_num at b4 b5 b6
  rw [s2] at b4 b5 b6
  obtain ⟨g3, c1, c2, c3, c4, c5, c6, c7⟩ := Game.straightLine_tick rt pu L g2 t3 2 _ b2 b4
    (by simpa [Ring.isTriggered] using b5) b3
  norm_num at c4 c5 c6
  rw [s3] at c4 c5 c6
  obtain ⟨g4, d1, d2, d3, d4, d5, d6, d7⟩ := Game.straightLine_tick rt pu L g3 t4 3 _ c2 c4
    (by simpa [Ring.isTriggered] using c5) c3
  norm_num at d4 d5 d6
  rw [s4] at d4 d5 d6
  obtain ⟨g5, e1, e2, e3, e4, e5, e6, e7⟩ := Game.straightLine_tick rt pu L g4 t5 4 _ d2 d4
    (by simpa [Ring.isTriggered] using d5) d3
  norm_num at e4 e5 e6
  rw [s5] at e4 e5 e6
  refine ⟨g1, g2, g3, g4, g5, a1, b1, c1, d1, e1, ⟨a2, b2, c2, d2, e2⟩, ?_, ?_, ?_, ?_, ?_⟩
  · simp [a4, a5, a6, Ring.isTriggered]
  · simp [b4, b5, b6, Ring.isTriggered, a7]
  · simp [c4, c5, c6, Ring.isTriggered, b7]
  · simp [d4, d5, d6, Ring.isTriggered, c7]
  · simp [e4, e5, e6, Ring.isTriggered, d7]

/-- C11: a tick of a started session whose cursor points at an existing checkpoint, at a
clock reading not before the last tick, returns. When the active checkpoint is triggered
after this tick's crossing check the deadline is `deadline - (t - last) + RING_TIME` and
the cursor advances by one; otherwise the deadline is `deadline - (t - last)` and the
cursor is unchanged. Apart from the bonus the deadline does not grow. Over any further
sequence of ticks the cursor never decreases, never passes the number of checkpoints, the
deadline has gained `RING_TIME` once per checkpoint passed, and a checkpoint that granted
the bonus is never the active one again. -/
theorem Game.checkpoint_progression {Ship : Type} (E : Decls Ship) (L : Libm) (g : Game Ship)
    (t : Int) (ship : Ship) (ring : Ring) (hs : g.m_ssh = some ship)
    (hr : g.m_rings[g.m_cur_ring_index]? = some ring) (hstart : g.m_game_started = true)
    (ht : g.m_last_time ≤ t) :
    ∃ g1, Game.gameAction E L g t = some g1 ∧
      ((ring.checkCrossing L (E.x (E.execute ship)) (E.z (E.execute ship))).isTriggered = true →
        g1.m_deadline_time = g.m_deadline_time - (t - g.m_last_time) + E.RING_TIME ∧
        g1.m_cur_ring_index = g.m_cur_ring_index + 1 ∧
        g1.m_deadline_time ≤ g.m_deadline_time + E.RING_TIME) ∧
      ((ring.checkCrossing L (E.x (E.execute ship)) (E.z (E.execute ship))).isTriggered = false →
        g1.m_deadline_time = g.m_deadline_time - (t - g.m_last_time) ∧
        g1.m_cur_ring_index = g.m_cur_ring_index ∧
        g1.m_deadline_time ≤ g.m_deadline_time) ∧
      g1.m_last_time = t ∧
      (∀ ts g2, Game.ticks E L g ts = some g2 →
        g.m_cur_ring_index ≤ g2.m_cur_ring_index ∧
        g2.m_cur_ring_index ≤ g2.m_rings.length ∧
        g2.m_deadline_time - g.m_deadline_time + (g2.m_last_time - g.m_last_time) =
          E.RING_TIME * ((g2.m_cur_ring_index : Int) - (g.m_cur_ring_index : Int))) ∧
      ((ring.checkCrossing L (E.x (E.execute ship)) (E.z (E.execute ship))).isTriggered = true →
        ∀ ts g2, Game.ticks E L g1 ts = some g2 →
          g.m_cur_ring_index < g2.m_cur_ring_index) := by
  obtain ⟨g1, h1, _, hst1, _, hcur, hdead, hlast⟩ :=
    Game.gameAction_fields E L g t ship ring hs hr
  have hlt : g.m_cur_ring_index < g.m_rings.length := by
    by_contra hcon
    rw [List.getElem?_eq_none (by omega)] at hr
    cases hr
  simp only [hstart, if_true] at hdead hlast
  refine ⟨g1, h1, ?_, ?_, hlast, ?_, ?_⟩
  · intro hc
    rw [if_pos hc] at hdead hcur
    exact ⟨hdead, hcur, by omega⟩
  · intro hc
    rw [hc] at hdead hcur
    simp only [Bool.false_eq_true, if_false, add_zero] at hdead hcur
    exact ⟨hdead, hcur, by omega⟩
  · intro ts g2 h2
    obtain ⟨_, i2, i3, i4, i5⟩ := Game.ticks_progress E L ts g g2 hstart h2
    exact ⟨i3, by have := i4 (by omega); omega, i5⟩
  · intro hc ts g2 h2
    rw [hstart] at hst1
    obtain ⟨_, _, i3, _, _⟩ := Game.ticks_progress E L ts g1 g2 hst1 h2
    rw [if_pos hc] at hcur
    omega

/-- A started session with the craft of `Decls.straightLine` four steps along and the ring
at (0, 1.5, -5) with previous depth 1: the tick at clock reading 80 advances the cursor and
adds `RING_TIME` to the deadline. -/
theorem Game.checkpoint_progression_witness :
    ∃ g1, Game.gameAction (Decls.straightLine 10000 true) Libm.yawZero
        { Game.sample (Decls.straightLine 10000 true) 0 [] with
          m_ssh := some 4
          m_last_time := 64
          m_rings := [Ring.mk false (Flt.fin 0) (Flt.fin (3 / 2)) (Flt.fin (-5)) (Flt.fin 0)
            (Flt.fin 1) false] } 80 = some g1 ∧
      g1.m_deadline_time = 10000 - (80 - 64) + 10000 ∧ g1.m_cur_ring_index = 1 := by
  obtain ⟨g1, h1, h2, _⟩ := Game.checkpoint_progression (Decls.straightLine 10000 true)
    Libm.yawZero
    { Game.sample (Decls.straightLine 10000 true) 0 [] with
      m_ssh := some 4
      m_last_time := 64
      m_rings := [Ring.mk false (Flt.fin 0) (Flt.fin (3 / 2)) (Flt.fin (-5)) (Flt.fin 0)
        (Flt.fin 1) false] } 80 4
    (Ring.mk false (Flt.fin 0) (Flt.fin (3 / 2)) (Flt.fin (-5)) (Flt.fin 0) (Flt.fin 1) false)
    rfl rfl rfl (by norm_num)
  have hc := (Ring.axis_steps Libm.yawZero ⟨rfl, rfl⟩).2.2.2.2
  have h3 := h2 (by
    simp only [Decls.straightLine]
    norm_num
    rw [hc]
    rfl)
  exact ⟨g1, h1, h3.1, h3.2.1⟩

/-- C12: two sessions reached from the constructor in which the cursor equals the number
of checkpoints and the spaceship exists. The first is created with zero checkpoints; the
second has one checkpoint, which the craft crosses on its fifth tick. In both the next
tick indexes `m_rings` at its length: the read has no defined result. -/
theorem Game.gameAction_past_last_ring :
    (Game.Reachable (Decls.straightLine 10000 true) Libm.yawZero (Game.placed 0) ∧
      (Game.placed 0).m_ssh = some 0 ∧
      (Game.placed 0).m_rings = [] ∧
      (Game.placed 0).m_cur_ring_index = 0 ∧
      Game.gameAction (Decls.straightLine 10000 true) Libm.yawZero (Game.placed 0) 16 = none) ∧
    ∃ g0 g5,
      Game.gameOnKey (Decls.straightLine 10000 true) (Game.placed 1) Key.W true 0 =
          some (g0, []) ∧
        Game.ticks (Decls.straightLine 10000 true) Libm.yawZero g0 [16, 32, 48, 64, 80] =
          some g5 ∧
        Game.Reachable (Decls.straightLine 10000 true) Libm.yawZero g5 ∧
        g5.m_ssh = some 5 ∧
        g5.m_rings.length = 1 ∧
        g5.m_cur_ring_index = 1 ∧
        g5.m_rings[g5.m_cur_ring_index]? = none ∧
        Game.gameAction (Decls.straightLine 10000 true) Libm.yawZero g5 96 = none := by
  refine ⟨⟨Game.Reachable.init _ _ _ (Game.Reachable.ctor 0), rfl, rfl, rfl, rfl⟩, ?_⟩
  have hkey : Game.gameOnKey (Decls.straightLine 10000 true) (Game.placed 1) Key.W true 0 =
      some ({ Game.placed 1 with
        m_game_started := true
        m_last_time := 0
        m_deadline_time := 10000 }, []) := rfl
  have hinit : Game.Reachable (Decls.straightLine 10000 true) Libm.yawZero (Game.placed 1) :=
    Game.Reachable.init _ _ _ (Game.Reachable.ctor 1)
  have hreach0 := Game.Reachable.key Key.W true 0 [] hinit hkey
  obtain ⟨g1, g2, g3, g4, g5, a1, a2, a3, a4, a5, hs, _, _, _, _, b5⟩ :=
    Game.straightLine_run Libm.yawZero ⟨rfl, rfl⟩ 10000 true
      { Game.placed 1 with
        m_game_started := true
        m_last_time := 0
        m_deadline_time := 10000 } 16 32 48 64 80 rfl rfl rfl rfl
  have hlen : g5.m_rings.length = 1 := by
    have h := congrArg List.length b5.1
    simpa using h
  have hnone : g5.m_rings[g5.m_cur_ring_index]? = none := by
    rw [List.getElem?_eq_none]
    rw [hlen, b5.2.1]
  refine ⟨_, g5, hkey, ?_, ?_, hs.2.2.2.2, hlen, b5.2.1, hnone,
    Game.gameAction_none_of_cursor _ _ g5 96 hnone⟩
  · simp [Game.ticks, a1, a2, a3, a4, a5]
  · exact Game.Reachable.tick 80 (Game.Reachable.tick 64 (Game.Reachable.tick 48
      (Game.Reachable.tick 32 (Game.Reachable.tick 16 hreach0 a1) a2) a3) a4) a5

/-- C16: a key event other than W, A, S, D returns and leaves the started flag, the
deadline and the last-tick time as they were. In a session with a spaceship every key
event returns; if the session is not yet started, the event of W, A, S or D (press or
release) sets the started flag, sets the deadline to `RING_TIME` and the last-tick time to
the clock reading; if the session is started, no key event changes the deadline or the
last-tick time. -/
theorem Game.session_start {Ship : Type} (E : Decls Ship) (g : Game Ship) (key : Key)
    (pressed : Bool) (ticks : Int) :
    (¬(key = Key.W ∨ key = Key.A ∨ key = Key.S ∨ key = Key.D) →
      ∃ g1 log, Game.gameOnKey E g key pressed ticks = some (g1, log) ∧
        g1.m_game_started = g.m_game_started ∧ g1.m_deadline_time = g.m_deadline_time ∧
        g1.m_last_time = g.m_last_time) ∧
    (∀ ship, g.m_ssh = some ship →
      ∃ g1 log, Game.gameOnKey E g key pressed ticks = some (g1, log) ∧
        (g.m_game_started = false →
          key = Key.W ∨ key = Key.A ∨ key = Key.S ∨ key = Key.D →
          g1.m_game_started = true ∧ g1.m_deadline_time = E.RING_TIME ∧
            g1.m_last_time = ticks) ∧
        (g.m_game_started = true →
          g1.m_game_started = true ∧ g1.m_deadline_time = g.m_deadline_time ∧
            g1.m_last_time = g.m_last_time)) := by
  constructor
  · intro hk
    unfold Game.gameOnKey
    cases key <;> cases pressed <;>
      simp [Game.change_camera_type, Game.changeState] at hk ⊢
    all_goals repeat' split
    all_goals simp_all
  · intro ship hs
    unfold Game.gameOnKey
    cases key <;> cases pressed <;> cases hst : g.m_game_started <;>
      simp [hs, hst, Game.change_camera_type, Game.changeState] <;>
      (repeat' split) <;> simp_all

/-- The press of W at clock reading 123 in the initialised game, not yet started. -/
theorem Game.session_start_witness :
    (Game.placed 1).m_game_started = false ∧
    ∃ g1 log, Game.gameOnKey (Decls.straightLine 10000 true) (Game.placed 1) Key.W true 123 =
        some (g1, log) ∧
      g1.m_game_started = true ∧ g1.m_deadline_time = 10000 ∧ g1.m_last_time = 123 := by
  obtain ⟨g1, log, h1, h2, _⟩ := (Game.session_start (Decls.straightLine 10000 true)
    (Game.placed 1) Key.W true 123).2 0 rfl
  exact ⟨rfl, g1, log, h1, h2 rfl (Or.inl rfl)⟩

/-- C17: a started session with the single ring at (0, 1.5, -5), yaw 0, and the craft at
(0, -k) on tick k. The ticks 1..5 return; after each of the ticks 1..4 the ring is not
triggered and the cursor is 0; after tick 5, when the craft is at Z = -5, the ring is
triggered, the cursor is 1 and the deadline is that of tick 4 less the elapsed time plus
`RING_TIME`. -/
theorem Game.checkpoint_scenario (L : Libm)
    (hL : L.cosf (Flt.fin 0) = Flt.fin 1 ∧ L.sinf (Flt.fin 0) = Flt.fin 0) (rt : Int)
    (pu : Bool) (p : Int) (cubes : List BadCube) (t1 t2 t3 t4 t5 : Int) :
    ∃ g1 g2 g3 g4 g5,
      Game.gameAction (Decls.straightLine rt pu) L
          (Game.sample (Decls.straightLine rt pu) p cubes) t1 = some g1 ∧
        Game.gameAction (Decls.straightLine rt pu) L g1 t2 = some g2 ∧
        Game.gameAction (Decls.straightLine rt pu) L g2 t3 = some g3 ∧
        Game.gameAction (Decls.straightLine rt pu) L g3 t4 = some g4 ∧
        Game.gameAction (Decls.straightLine rt pu) L g4 t5 = some g5 ∧
        (g1.m_ssh = some 1 ∧ g2.m_ssh = some 2 ∧ g3.m_ssh = some 3 ∧ g4.m_ssh = some 4 ∧
          g5.m_ssh = some 5) ∧
        (g1.m_rings.map Ring.isTriggered = [false] ∧ g1.m_cur_ring_index = 0 ∧
          g1.m_deadline_time = rt - t1) ∧
        (g2.m_rings.map Ring.isTriggered = [false] ∧ g2.m_cur_ring_index = 0 ∧
          g2.m_deadline_time = g1.m_deadline_time - (t2 - t1)) ∧
        (g3.m_rings.map Ring.isTriggered = [false] ∧ g3.m_cur_ring_index = 0 ∧
          g3.m_deadline_time = g2.m_deadline_time - (t3 - t2)) ∧
        (g4.m_rings.map Ring.isTriggered = [false] ∧ g4.m_cur_ring_index = 0 ∧
          g4.m_deadline_time = g3.m_deadline_time - (t4 - t3)) ∧
        (g5.m_rings.map Ring.isTriggered = [true] ∧ g5.m_cur_ring_index = 1 ∧
          g5.m_deadline_time = g4.m_deadline_time - (t5 - t4) + rt) := by
  have h := Game.straightLine_run L hL rt pu (Game.sample (Decls.straightLine rt pu) p cubes)
    t1 t2 t3 t4 t5 rfl rfl rfl rfl
  simpa [Game.sample, Decls.straightLine] using h

/-- The scenario of C17 at `RING_TIME` 10000 with ticks 16 ms apart: the fifth tick leaves
the cursor at 1 and the deadline at 10000 - 80 + 10000. -/
theorem Game.checkpoint_scenario_witness :
    (Libm.yawZero.cosf (Flt.fin 0) = Flt.fin 1 ∧ Libm.yawZero.sinf (Flt.fin 0) = Flt.fin 0) ∧
    ∃ g1 g2 g3 g4 g5,
      Game.gameAction (Decls.straightLine 10000 true) Libm.yawZero
          (Game.sample (Decls.straightLine 10000 true) 0 [BadCube.aside]) 16 = some g1 ∧
        Game.gameAction (Decls.straightLine 10000 true) Libm.yawZero g1 32 = some g2 ∧
        Game.gameAction (Decls.straightLine 10000 true) Libm.yawZero g2 48 = some g3 ∧
        Game.gameAction (Decls.straightLine 10000 true) Libm.yawZero g3 64 = some g4 ∧
        Game.gameAction (Decls.straightLine 10000 true) Libm.yawZero g4 80 = some g5 ∧
        g4.m_cur_ring_index = 0 ∧ g5.m_cur_ring_index = 1 ∧ g5.m_deadline_time = 19920 := by
  refine ⟨⟨rfl, rfl⟩, ?_⟩
  obtain ⟨g1, g2, g3, g4, g5, a1, a2, a3, a4, a5, _, b1, b2, b3, b4, b5⟩ :=
    Game.checkpoint_scenario Libm.yawZero ⟨rfl, rfl⟩ 10000 true 0 [BadCube.aside] 16 32 48 64 80
  refine ⟨g1, g2, g3, g4, g5, a1, a2, a3, a4, a5, b4.2.1, b5.2.1, ?_⟩
  rw [b5.2.2, b4.2.2, b3.2.2, b2.2.2, b1.2.2]
  norm_num

/-! ## A hit and the decay after it -/

theorem BadCube.aside_miss (L : Libm)
    (hL : L.cosf (Flt.fin 0) = Flt.fin 1 ∧ L.sinf (Flt.fin 0) = Flt.fin 0) (q : ℚ) :
    (BadCube.checkCrossing L BadCube.aside (Flt.fin 0) (Flt.fin q)).2 = false := by
  simp [BadCube.checkCrossing, BadCube.aside, BadCube.new, Flt.sub, Flt.add, Flt.mul, Flt.neg,
    Flt.lt, Flt.le, Flt.gt, Flt.ge, Flt.eq, INFINITY, BadCube.side, M_PI, Flt.div, hL.1, hL.2]
  norm_num

theorem BadCube.behind_steps (L : Libm)
    (hL : L.cosf (Flt.fin 0) = Flt.fin 1 ∧ L.sinf (Flt.fin 0) = Flt.fin 0) :
    BadCube.checkCrossing L BadCube.behind (Flt.fin 0) (Flt.fin (-1)) =
        ({ BadCube.behind with m_ship_old_z := Flt.fin (-6) }, true) ∧
      (BadCube.checkCrossing L { BadCube.behind with m_ship_old_z := Flt.fin (-6) }
        (Flt.fin 0) (Flt.fin (-2))).2 = false := by
  constructor <;>
    simp [BadCube.checkCrossing, BadCube.behind, BadCube.new, Flt.sub, Flt.add, Flt.mul,
      Flt.neg, Flt.lt, Flt.le, Flt.gt, Flt.ge, Flt.eq, INFINITY, BadCube.side, M_PI, Flt.div,
      hL.1, hL.2] <;>
    norm_num

theorem Game.hit_run :
    ∃ g0 g1 g2,
      Game.gameOnKey (Decls.straightLine 10000 true) Game.oneCubeBehind Key.W true 0 =
          some (g0, []) ∧
        Game.gameAction (Decls.straightLine 10000 true) Libm.yawZero g0 16 = some g1 ∧
        Game.gameAction (Decls.straightLine 10000 true) Libm.yawZero g1 32 = some g2 ∧
        Game.Reachable (Decls.straightLine 10000 true) Libm.yawZero g1 ∧
        Game.Reachable (Decls.straightLine 10000 true) Libm.yawZero g2 ∧
        g1.m_penalty_time = 6000 ∧
        g2.m_penalty_time = 5900 ∧
        g1.m_game_started = true ∧
        g1.m_ssh = some 1 ∧
        g1.m_rings[g1.m_cur_ring_index]? =
          some (Ring.mk false (Flt.fin 0) (Flt.fin (3 / 2)) (Flt.fin (-5)) (Flt.fin 0)
            (Flt.fin 4) false) ∧
        (∀ c ∈ g1.m_cubes, (c.checkCrossing Libm.yawZero
          ((Decls.straightLine 10000 true).x ((Decls.straightLine 10000 true).execute 1))
          ((Decls.straightLine 10000 true).z ((Decls.straightLine 10000 true).execute 1))).2 =
            false) := by
  have hL : Libm.yawZero.cosf (Flt.fin 0) = Flt.fin 1 ∧
      Libm.yawZero.sinf (Flt.fin 0) = Flt.fin 0 := ⟨rfl, rfl⟩
  have hkey : Game.gameOnKey (Decls.straightLine 10000 true) Game.oneCubeBehind Key.W true 0 =
      some ({ Game.oneCubeBehind with
        m_game_started := true
        m_last_time := 0
        m_deadline_time := 10000 }, []) := rfl
  have hinit : Game.Reachable (Decls.straightLine 10000 true) Libm.yawZero
      Game.oneCubeBehind := Game.Reachable.init _ _ _ (Game.Reachable.ctor 1)
  have hreach0 := Game.Reachable.key Key.W true 0 [] hinit hkey
  -- the first tick: the cube behind the craft signals
  obtain ⟨g1, a1, a2, a3, a4, a5, _, _⟩ := Game.straightLine_tick 10000 true Libm.yawZero
    { Game.oneCubeBehind with
      m_game_started := true
      m_last_time := 0
      m_deadline_time := 10000 } 16 0
    (Ring.new (Flt.fin 0) (Flt.fin (3 / 2)) (Flt.fin (-5)) false (Flt.fin 0)) rfl rfl rfl rfl
  norm_num at a4 a5
  rw [(Ring.axis_steps Libm.yawZero hL).1] at a4 a5
  have a5' : g1.m_cur_ring_index = 0 := by simpa [Ring.isTriggered] using a5
  obtain ⟨g1', b1, b2, b3⟩ := Game.gameAction_some (Decls.straightLine 10000 true)
    Libm.yawZero
    { Game.oneCubeBehind with
      m_game_started := true
      m_last_time := 0
      m_deadline_time := 10000 } 16 0
    (Ring.new (Flt.fin 0) (Flt.fin (3 / 2)) (Flt.fin (-5)) false (Flt.fin 0)) rfl rfl
  rw [a1] at b1
  cases b1
  have hloop1 : Game.cubesLoop Libm.yawZero (Flt.fin 0) (Flt.fin (-1))
      (BadCube.behind :: List.replicate 9 BadCube.aside) =
      ({ BadCube.behind with m_ship_old_z := Flt.fin (-6) } ::
        List.replicate 9 BadCube.aside, true) := by
    rw [Game.cubesLoop, (BadCube.behind_steps Libm.yawZero hL).1]
    rfl
  have hx : (Decls.straightLine 10000 true).x ((Decls.straightLine 10000 true).execute 0) =
      Flt.fin 0 := rfl
  have hz : (Decls.straightLine 10000 true).z ((Decls.straightLine 10000 true).execute 0) =
      Flt.fin (-1) := by
    simp [Decls.straightLine]
  have hx1 : (Decls.straightLine 10000 true).x ((Decls.straightLine 10000 true).execute 1) =
      Flt.fin 0 := rfl
  have hz1 : (Decls.straightLine 10000 true).z ((Decls.straightLine 10000 true).execute 1) =
      Flt.fin (-2) := by
    simp [Decls.straightLine]
  have hcubes0 : ({ Game.oneCubeBehind with
      m_game_started := true
      m_last_time := 0
      m_deadline_time := 10000 } : Game Nat).m_cubes =
      BadCube.behind :: List.replicate 9 BadCube.aside := rfl
  rw [hx, hz, hcubes0, hloop1] at b2 b3
  simp only [if_true] at b3
  have hp1 : g1.m_penalty_time = 6000 := by
    rw [b3]
    exact Decls.toPenalty_of_range _ 6000 (by omega) (by omega)
  have hmiss : ∀ c ∈ g1.m_cubes, (c.checkCrossing Libm.yawZero
      ((Decls.straightLine 10000 true).x ((Decls.straightLine 10000 true).execute 1))
      ((Decls.straightLine 10000 true).z ((Decls.straightLine 10000 true).execute 1))).2 =
        false := by
    intro c hc
    rw [hx1, hz1]
    rw [b2] at hc
    rcases List.mem_cons.1 hc with rfl | hc1
    · exact (BadCube.behind_steps Libm.yawZero hL).2
    · rw [List.eq_of_mem_replicate hc1]
      exact BadCube.aside_miss Libm.yawZero hL (-2)
  have hr1 : g1.m_rings[g1.m_cur_ring_index]? =
      some (Ring.mk false (Flt.fin 0) (Flt.fin (3 / 2)) (Flt.fin (-5)) (Flt.fin 0)
        (Flt.fin 4) false) := by
    rw [a4, a5']
    rfl
  -- the second tick: no cube signals, the countdown decays
  obtain ⟨g2, c1, _, c3⟩ := Game.gameAction_some (Decls.straightLine 10000 true)
    Libm.yawZero g1 32 1 _ a2 hr1
  rw [Game.cubesLoop_miss Libm.yawZero _ _ g1.m_cubes hmiss] at c3
  have hp2 : g2.m_penalty_time = 5900 := by
    rw [c3]
    simp [Game.penaltyBeforeLoop, a3, hp1, Game.penaltyStep, Decls.toPenalty,
      Decls.straightLine]
  have hreach1 := Game.Reachable.tick 16 hreach0 a1
  exact ⟨_, g1, g2, hkey, a1, c1, hreach1, Game.Reachable.tick 32 hreach1 c1, hp1, hp2, a3, a2,
    hr1, hmiss⟩

/-- The initialised game with one cube behind the craft, after the press of W and two
ticks: the first tick is a hit and sets the countdown to 6000, the second decays it to
5900; the state is reachable and its countdown is in range. -/
theorem Game.penalty_invariant_witness :
    ∃ g0 g2,
      Game.gameOnKey (Decls.straightLine 10000 true) Game.oneCubeBehind Key.W true 0 =
          some (g0, []) ∧
        Game.ticks (Decls.straightLine 10000 true) Libm.yawZero g0 [16, 32] = some g2 ∧
        Game.Reachable (Decls.straightLine 10000 true) Libm.yawZero g2 ∧
        g2.m_penalty_time = 5900 ∧
        0 ≤ g2.m_penalty_time ∧ g2.m_penalty_time ≤ 6000 := by
  obtain ⟨g0, g1, g2, hkey, h1, h2, _, hreach, _, hp, _⟩ := Game.hit_run
  exact ⟨g0, g2, hkey, by simp [Game.ticks, h1, h2], hreach, hp,
    Game.penalty_invariant (Decls.straightLine 10000 true) Libm.yawZero g2 hreach⟩

/-- The session with one cube behind the craft, after the press of W and the tick of the
hit: the countdown is 6000 and the next tick, in which no cube signals, leaves 5900. -/
theorem Game.penalty_decay_witness :
    ∃ g0 g1 g2,
      Game.gameOnKey (Decls.straightLine 10000 true) Game.oneCubeBehind Key.W true 0 =
          some (g0, []) ∧
        Game.gameAction (Decls.straightLine 10000 true) Libm.yawZero g0 16 = some g1 ∧
        Game.Reachable (Decls.straightLine 10000 true) Libm.yawZero g1 ∧
        g1.m_game_started = true ∧
        g1.m_penalty_time = 6000 ∧
        Game.gameAction (Decls.straightLine 10000 true) Libm.yawZero g1 32 = some g2 ∧
        g2.m_penalty_time = 5900 := by
  obtain ⟨g0, g1, g2, hkey, h1, _, hreach, _, hp1, _, hst, hs, hr, hmiss⟩ := Game.hit_run
  obtain ⟨g3, h3, _, _, _, _, h8⟩ := Game.penalty_decay (Decls.straightLine 10000 true)
    Libm.yawZero g1 32 1 _ hreach hs hr hst hmiss
  refine ⟨g0, g1, g3, hkey, h1, hreach, hst, hp1, h3, ?_⟩
  rw [h8, hp1]
  norm_num

/-! ## The flight-mode overloads -/

/-- C19: for a ring and for a cube, in any prior state and for any craft position. The
3D overload of `checkCrossing` newly triggers the ring exactly when the 2D overload does
and `-2R < y - py < 2R` (R = 2.5); the two overloads leave the same stored previous depth,
and a ring the 3D overload leaves triggered is left triggered by the 2D overload. The 3D
overload of the cube returns true exactly when the 2D overload does and
`-2 side < y - py < 2 side`; the two overloads leave the cube in the same state. -/
theorem Ring.checkCrossing3D_iff (L : Libm) (r : Ring) (c : BadCube) (x y z : Flt) :
    ((r.m_triggered = false ∧ (Ring.checkCrossing3D L r x y z).m_triggered = true ↔
        (r.m_triggered = false ∧ (Ring.checkCrossing L r x z).m_triggered = true) ∧
          Flt.lt (Flt.fin (-(2 * (5 / 2)))) (Flt.sub y r.m_py) = true ∧
          Flt.lt (Flt.sub y r.m_py) (Flt.fin (2 * (5 / 2))) = true) ∧
      (Ring.checkCrossing3D L r x y z).m_ship_old_z =
        (Ring.checkCrossing L r x z).m_ship_old_z ∧
      ((Ring.checkCrossing3D L r x y z).isTriggered = true →
        (Ring.checkCrossing L r x z).isTriggered = true)) ∧
    (((BadCube.checkCrossing3D L c x y z).2 = true ↔
        (BadCube.checkCrossing L c x z).2 = true ∧
          Flt.lt (Flt.fin (-(2 * (5 / 2)))) (Flt.sub y c.m_py) = true ∧
          Flt.lt (Flt.sub y c.m_py) (Flt.fin (2 * (5 / 2))) = true) ∧
      (BadCube.checkCrossing3D L c x y z).1 = (BadCube.checkCrossing L c x z).1) := by
  have hs : Flt.mul (Flt.fin 2) BadCube.side = Flt.fin (2 * (5 / 2)) := by
    simp [Flt.mul, BadCube.side]
  have hn : Flt.mul (Flt.fin (-2)) BadCube.side = Flt.fin (-(2 * (5 / 2))) := by
    simp [Flt.mul, BadCube.side]
  refine ⟨?_, ?_⟩
  · cases ht : r.m_triggered
    · simp only [Ring.checkCrossing3D, Ring.checkCrossing, ht, Ring.two_s_R, Ring.neg_two_s_R,
        Ring.isTriggered, Flt.gt]
      generalize Flt.eq r.m_ship_old_z INFINITY = a
      generalize Flt.ge _ (Flt.fin 0) = b
      generalize Flt.le _ (Flt.fin 0) = d
      generalize Flt.lt r.m_ship_old_z (Flt.fin 0) = e
      generalize Flt.lt (Flt.fin 0) r.m_ship_old_z = f
      generalize Flt.lt (Flt.sub (Flt.mul (Flt.sub x r.m_px) _) _) (Flt.fin (2 * (5 / 2))) = k
      generalize Flt.lt (Flt.fin (-(2 * (5 / 2)))) (Flt.sub (Flt.mul (Flt.sub x r.m_px) _) _) = l
      generalize Flt.lt (Flt.sub y r.m_py) (Flt.fin (2 * (5 / 2))) = m
      generalize Flt.lt (Flt.fin (-(2 * (5 / 2)))) (Flt.sub y r.m_py) = n
      cases a <;> cases b <;> cases d <;> cases e <;> cases f <;> cases k <;> cases l <;>
        cases m <;> cases n <;> simp [ht]
    · simp [Ring.checkCrossing3D, Ring.checkCrossing, ht, Ring.isTriggered]
  · simp only [BadCube.checkCrossing3D, BadCube.checkCrossing, hs, hn, Flt.gt]
    generalize Flt.ge _ (Flt.fin 0) = b
    generalize Flt.le _ (Flt.fin 0) = d
    generalize Flt.lt c.m_ship_old_z (Flt.fin 0) = e
    generalize Flt.lt (Flt.fin 0) c.m_ship_old_z = f
    generalize Flt.lt (Flt.sub (Flt.mul (Flt.sub x c.m_px) _) _) (Flt.fin (2 * (5 / 2))) = k
    generalize Flt.lt (Flt.fin (-(2 * (5 / 2)))) (Flt.sub (Flt.mul (Flt.sub x c.m_px) _) _) = l
    generalize Flt.lt (Flt.sub y c.m_py) (Flt.fin (2 * (5 / 2))) = m
    generalize Flt.lt (Flt.fin (-(2 * (5 / 2)))) (Flt.sub y c.m_py) = n
    cases b <;> cases d <;> cases e <;> cases f <;> cases k <;> cases l <;>
      cases m <;> cases n <;> simp

/-- A ring with previous depth 1 and the craft at depth 0 of its frame, 8.5 above its
height: the 2D overload triggers the ring, the 3D overload does not. -/
theorem Ring.checkCrossing3D_iff_witness :
    (Ring.checkCrossing Libm.yawZero
        (Ring.mk true (Flt.fin 0) (Flt.fin (3 / 2)) (Flt.fin (-5)) (Flt.fin 0) (Flt.fin 1) false)
        (Flt.fin 0) (Flt.fin (-5))).m_triggered = true ∧
      (Ring.checkCrossing3D Libm.yawZero
        (Ring.mk true (Flt.fin 0) (Flt.fin (3 / 2)) (Flt.fin (-5)) (Flt.fin 0) (Flt.fin 1) false)
        (Flt.fin 0) (Flt.fin 10) (Flt.fin (-5))).m_triggered = false := by
  have h := (Ring.checkCrossing3D_iff Libm.yawZero
    (Ring.mk true (Flt.fin 0) (Flt.fin (3 / 2)) (Flt.fin (-5)) (Flt.fin 0) (Flt.fin 1) false)
    BadCube.aside (Flt.fin 0) (Flt.fin 10) (Flt.fin (-5))).1.1
  have h2 : (Ring.checkCrossing Libm.yawZero
      (Ring.mk true (Flt.fin 0) (Flt.fin (3 / 2)) (Flt.fin (-5)) (Flt.fin 0) (Flt.fin 1) false)
      (Flt.fin 0) (Flt.fin (-5))).m_triggered = true := by
    simp [Ring.checkCrossing, Libm.yawZero, Flt.sub, Flt.add, Flt.mul, Flt.neg, Flt.lt,
      Flt.le, Flt.gt, Flt.ge, Flt.eq, INFINITY, M_PI, Flt.div, Ring.s_R]
  refine ⟨h2, ?_⟩
  by_contra hcon
  rw [Bool.not_eq_false] at hcon
  have h3 := (h.1 ⟨rfl, hcon⟩).2.2
  revert h3
  simp [Flt.sub, Flt.add, Flt.neg, Flt.lt]
  norm_num

/-! ## Properties of the kinematic body -/

theorem Controller.ofFlags_key (k : Controller) :
    Controller.ofFlags (k.key Button.LEFT) (k.key Button.RIGHT) (k.key Button.ACC)
      (k.key Button.DEC) = k := by
  cases k with
  | mk key =>
    simp only [Controller.ofFlags, Controller.mk.injEq]
    funext b
    cases b <;> rfl

theorem Car.DoStepRounded_exact {K : Type} [Field K] (T : Trig K) (c : Car K) :
    Car.DoStepRounded id id T c = Car.DoStep T c ∧
      (Car.InitRounded id id : Car K) = Car.Init :=
  ⟨rfl, rfl⟩

end FlappyShip
